import Mathlib

/-!
Verification of the ketchup cluster-capture tool (src/ketchup/src) against its
specification.  The development shallowly embeds the JSON data model
(`serde_json::Value` restricted to the constructs the tool uses), the
sanitization transform of `output.rs`, the statistics aggregate, the
per-resource save loop, the SUSE-Edge component detector of `suse_edge.rs`,
and the two-phase custom-resource resolver of `k8s.rs` (with the Kubernetes
transport abstracted into an environment of fallible listing calls and an
explicit step trace recording each remote invocation).
-/

/-- JSON values as used by the tool (`serde_json::Value`; numbers are modelled
as integers, which covers every numeric field the code inspects). -/
inductive Json where
  | null : Json
  | bool (b : Bool) : Json
  | num (n : Int) : Json
  | str (s : String) : Json
  | arr (elements : List Json) : Json
  | obj (fields : List (String × Json)) : Json

/-- The field list of a JSON object (`serde_json::Map` as an association list). -/
abbrev Fields := List (String × Json)

/-- First binding of `key`, mirroring `Map::get`. -/
def findField : Fields → String → Option Json
  | [], _ => none
  | (k, v) :: rest, key => if k = key then some v else findField rest key

/-- `Map::remove`: drop the binding of `key`. -/
def removeField (key : String) : Fields → Fields
  | [] => []
  | (k, v) :: rest => if k = key then removeField key rest else (k, v) :: removeField key rest

/-- In-place update through `Map::get_mut`: apply `f` to the value bound to `key`. -/
def modifyField (key : String) (f : Json → Json) : Fields → Fields
  | [] => []
  | (k, v) :: rest =>
    if k = key then (k, f v) :: modifyField key f rest
    else (k, v) :: modifyField key f rest

/-- `Value::get` with a string index: only objects yield a field. -/
def Json.get? (j : Json) (key : String) : Option Json :=
  match j with
  | .obj fields => findField fields key
  | _ => none

/-- `Value::as_str`. -/
def Json.asStr : Json → Option String
  | .str s => some s
  | _ => none

/-- `Value::as_bool`. -/
def Json.asBool : Json → Option Bool
  | .bool b => some b
  | _ => none

/-- `Value::as_array`. -/
def Json.asArr : Json → Option (List Json)
  | .arr elements => some elements
  | _ => none

/-- `Value::as_u64`: only non-negative integers convert. -/
def Json.asU64 : Json → Option Nat
  | .num n => if 0 ≤ n then some n.toNat else none
  | _ => none

/-- Character-list prefix test (used to embed Rust's `str::starts_with`). -/
def listPre : List Char → List Char → Bool
  | [], _ => true
  | _ :: _, [] => false
  | a :: as, b :: bs => a == b && listPre as bs

/-- Character-list substring test (used to embed Rust's `str::contains`). -/
def listSub (sub : List Char) : List Char → Bool
  | [] => sub.isEmpty
  | c :: cs => listPre sub (c :: cs) || listSub sub cs

/-- Rust `s.starts_with(pre)`. -/
def strStarts (s pre : String) : Bool := listPre pre.data s.data

/-- Rust `s.contains(sub)` for the non-empty patterns the tool uses. -/
def strContains (s sub : String) : Bool := listSub sub.data s.data

/-! ## Sanitizer (`output.rs`, `sanitize_resource_for_apply`) -/

/-- Annotation keys retained by the sanitizer (`annotations.retain`). -/
def annotKeyKept (k : String) : Bool :=
  !(strStarts k "kubectl.kubernetes.io/") && !(strStarts k "deployment.kubernetes.io/")
    && !(k == "control-plane.alpha.kubernetes.io/leader")

/-- Finalizer entries retained by the sanitizer (`finalizers.retain`):
non-string entries are kept, string entries are kept unless system-prefixed. -/
def finalizerKept : Json → Bool
  | .str s => !(strStarts s "kubernetes.io/")
  | _ => true

/-- The six unconditional `metadata.remove` calls. -/
def scrubMetaKeys (m : Fields) : Fields :=
  removeField "selfLink" (removeField "managedFields" (removeField "generation"
    (removeField "creationTimestamp" (removeField "resourceVersion" (removeField "uid" m)))))

/-- The annotation-cleaning block: retain allowed keys, drop the map if it
becomes empty.  Applies only when `metadata.annotations` is an object. -/
def cleanAnnots (m : Fields) : Fields :=
  match findField m "annotations" with
  | some (.obj a) =>
    let kept := a.filter (fun kv => annotKeyKept kv.1)
    if kept.isEmpty then removeField "annotations" m
    else modifyField "annotations" (fun _ => Json.obj kept) m
  | _ => m

/-- The finalizer-cleaning block: retain allowed entries, drop the array if it
becomes empty.  Applies only when `metadata.finalizers` is an array. -/
def cleanFinals (m : Fields) : Fields :=
  match findField m "finalizers" with
  | some (.arr fs) =>
    let kept := fs.filter finalizerKept
    if kept.isEmpty then removeField "finalizers" m
    else modifyField "finalizers" (fun _ => Json.arr kept) m
  | _ => m

/-- Full metadata cleaning: scrub the six fields, then annotations, then finalizers. -/
def cleanMetadataFields (m : Fields) : Fields := cleanFinals (cleanAnnots (scrubMetaKeys m))

/-- Metadata cleaning applies only when `metadata` is an object (`as_object_mut`). -/
def cleanMetadataValue : Json → Json
  | .obj m => .obj (cleanMetadataFields m)
  | v => v

/-- `Node` rule: keep only `podCIDR`, `podCIDRs`, `taints` in `spec`. -/
def nodeSpecKeyKept (k : String) : Bool := k == "podCIDR" || k == "podCIDRs" || k == "taints"

/-- `Node` spec cleaning (`spec.retain`), when `spec` is an object. -/
def cleanNodeSpec : Json → Json
  | .obj s => .obj (s.filter (fun kv => nodeSpecKeyKept kv.1))
  | v => v

/-- `Service` port entry: drop `nodePort` when `as_u64().unwrap_or(0) >= 30000`. -/
def sanitizeServicePort (port : Json) : Json :=
  match port with
  | .obj p =>
    match findField p "nodePort" with
    | some node_port =>
      if 30000 ≤ (node_port.asU64.getD 0) then Json.obj (removeField "nodePort" p)
      else Json.obj p
    | none => Json.obj p
  | v => v

/-- `Service` ports list handling, when `spec.ports` is an array. -/
def cleanServicePorts : Json → Json
  | .arr ports => .arr (ports.map sanitizeServicePort)
  | v => v

/-- `Service` spec cleaning: remove `clusterIP`/`clusterIPs`, then the ports pass. -/
def cleanServiceSpecFields (s : Fields) : Fields :=
  modifyField "ports" cleanServicePorts (removeField "clusterIPs" (removeField "clusterIP" s))

/-- `Service` spec cleaning, when `spec` is an object. -/
def cleanServiceSpec : Json → Json
  | .obj s => .obj (cleanServiceSpecFields s)
  | v => v

/-- `PersistentVolume` rule: remove `spec.claimRef`. -/
def cleanPVSpec : Json → Json
  | .obj s => .obj (removeField "claimRef" s)
  | v => v

/-- `PersistentVolumeClaim` rule: remove `spec.volumeName`. -/
def cleanPVCSpec : Json → Json
  | .obj s => .obj (removeField "volumeName" s)
  | v => v

/-- The metadata-cleaning step on a whole object. -/
def metaStep (o : Fields) : Fields := modifyField "metadata" cleanMetadataValue o

/-- The kind dispatch table of the `match obj.get("kind")` block. -/
def kindRule : Option Json → Option (Json → Json)
  | some (.str "Node") => some cleanNodeSpec
  | some (.str "Service") => some cleanServiceSpec
  | some (.str "PersistentVolume") => some cleanPVSpec
  | some (.str "PersistentVolumeClaim") => some cleanPVCSpec
  | _ => none

/-- The kind-specific step: apply the matching rule to `spec`, if any. -/
def kindStep (o : Fields) : Fields :=
  match kindRule (findField o "kind") with
  | some f => modifyField "spec" f o
  | none => o

/-- Sanitization of an object's fields: remove `status`, clean `metadata`,
then the kind-specific rules, in the order of the source. -/
def sanitizeFields (o : Fields) : Fields := kindStep (metaStep (removeField "status" o))

/-- The value-level sanitization transform: a non-object document is left
unchanged (the `if let Some(obj) = resource.as_object_mut()` guard). -/
def sanitizeResource : Json → Json
  | .obj o => .obj (sanitizeFields o)
  | v => v

/-- `sanitize_resource_for_apply`: the function signature is fallible but every
path returns `Ok`, with the document rewritten in place. -/
def sanitize_resource_for_apply (resource : Json) : Except String Json :=
  .ok (sanitizeResource resource)

/-! ## Sanitization statistics (`output.rs`, `SanitizationStats`) -/

/-- `SanitizationStats`. -/
structure SanitizationStats where
  total_processed : Nat
  total_sanitized : Nat
  total_skipped : Nat
  skipped_resources : List String
deriving Repr, DecidableEq

/-- `SanitizationStats::new` / `Default::default`. -/
def SanitizationStats.new : SanitizationStats :=
  { total_processed := 0, total_sanitized := 0, total_skipped := 0, skipped_resources := [] }

/-- `SanitizationStats::add`. -/
def SanitizationStats.add (s other : SanitizationStats) : SanitizationStats :=
  { total_processed := s.total_processed + other.total_processed
    total_sanitized := s.total_sanitized + other.total_sanitized
    total_skipped := s.total_skipped + other.total_skipped
    skipped_resources := s.skipped_resources ++ other.skipped_resources }

/-- `SanitizationStats::record_sanitized`. -/
def SanitizationStats.record_sanitized (s : SanitizationStats) : SanitizationStats :=
  { s with total_processed := s.total_processed + 1, total_sanitized := s.total_sanitized + 1 }

/-- `SanitizationStats::record_skipped`. -/
def SanitizationStats.record_skipped (s : SanitizationStats)
    (resource_identifier : String) : SanitizationStats :=
  { s with total_processed := s.total_processed + 1, total_skipped := s.total_skipped + 1,
           skipped_resources := s.skipped_resources ++ [resource_identifier] }

/-- `SanitizationStats::record_raw`: raw resources are neither sanitized nor skipped. -/
def SanitizationStats.record_raw (s : SanitizationStats) : SanitizationStats :=
  { s with total_processed := s.total_processed + 1 }

/-! ## Individual resource saving (`output.rs`, `save_resources_individually`) -/

/-- `metadata.name` as a string, the per-resource gate of the save loop. -/
def resourceStrName (resource : Json) : Option String :=
  ((resource.get? "metadata").bind (fun m => m.get? "name")).bind Json.asStr

/-- `get_resource_identifier`: `kind/name` or `kind/name (namespace)` with the
resource-type key standing for the kind position. -/
def get_resource_identifier (resource : Json) (resource_type : String) : String :=
  let name := (((resource.get? "metadata").bind (fun m => m.get? "name")).bind
    Json.asStr).getD "unknown"
  match ((resource.get? "metadata").bind (fun m => m.get? "namespace")).bind Json.asStr with
  | some ns => resource_type ++ "/" ++ name ++ " (" ++ ns ++ ")"
  | none => resource_type ++ "/" ++ name

/-- The observable outcome of a save run: the returned count, the stats, and
the files written (name and content), in order. -/
structure SaveOutcome where
  saved_count : Nat
  stats : SanitizationStats
  files : List (String × Json)

/-- The per-resource loop of `save_resources_individually`.  A resource without
a string `metadata.name` is passed over silently; otherwise the document is
sanitized (or taken raw), stats are recorded, and the file writes of the chosen
format are emitted.  An unknown format aborts with the source's error. -/
def save_loop (resource_dir resource_type format : String) (sanitize : Bool) :
    List Json → SaveOutcome → Except String SaveOutcome
  | [], acc => .ok acc
  | resource :: rest, acc =>
    match resourceStrName resource with
    | none => save_loop resource_dir resource_type format sanitize rest acc
    | some resource_name =>
      match (if sanitize then
               match sanitize_resource_for_apply resource with
               | .ok sanitized => some (sanitized, acc.stats.record_sanitized)
               | .error _ => none
             else some (resource, acc.stats.record_raw)) with
      | none =>
        let resource_id := get_resource_identifier resource resource_type
        save_loop resource_dir resource_type format sanitize rest
          { acc with stats := acc.stats.record_skipped resource_id }
      | some (final_resource, stats) =>
        if format = "json" then
          save_loop resource_dir resource_type format sanitize rest
            { saved_count := acc.saved_count + 1, stats := stats,
              files := acc.files ++ [(resource_dir ++ "/" ++ resource_name ++ ".json",
                final_resource)] }
        else if format = "yaml" then
          save_loop resource_dir resource_type format sanitize rest
            { saved_count := acc.saved_count + 1, stats := stats,
              files := acc.files ++ [(resource_dir ++ "/" ++ resource_name ++ ".yaml",
                final_resource)] }
        else if format = "both" then
          save_loop resource_dir resource_type format sanitize rest
            { saved_count := acc.saved_count + 1, stats := stats,
              files := acc.files
                ++ [(resource_dir ++ "/" ++ resource_name ++ ".json", final_resource),
                    (resource_dir ++ "/" ++ resource_name ++ ".yaml", final_resource)] }
        else .error ("Invalid format: " ++ format)

/-- The output directory chosen for a resource type (string layout of the source). -/
def resourceDirFor (output_dir nsName resource_type : String) : String :=
  let is_custom_resource := strContains resource_type "."
  if nsName = "cluster-wide" then
    if is_custom_resource then
      output_dir ++ "/cluster-wide-resources/custom-resources/" ++ resource_type
    else output_dir ++ "/cluster-wide-resources/" ++ resource_type
  else
    if is_custom_resource then
      output_dir ++ "/namespaced-resources/" ++ nsName ++ "/custom-resources/" ++ resource_type
    else output_dir ++ "/namespaced-resources/" ++ nsName ++ "/" ++ resource_type

/-- `save_resources_individually` (file-system effects abstracted into the
returned file list; the empty input short-circuits before any directory work). -/
def save_resources_individually (output_dir nsName : String) (resources : List Json)
    (resource_type format : String) (sanitize : Bool) : Except String SaveOutcome :=
  if resources.isEmpty then
    .ok { saved_count := 0, stats := SanitizationStats.new, files := [] }
  else
    save_loop (resourceDirFor output_dir nsName resource_type) resource_type format sanitize
      resources { saved_count := 0, stats := SanitizationStats.new, files := [] }

/-! ## SUSE Edge component detection (`suse_edge.rs`) -/

/-- `SuseEdgeComponent`. -/
structure SuseEdgeComponent where
  name : String
  version : Option String
  found_in : List String
  category : String
deriving Repr, DecidableEq

/-- `SuseEdgeAnalysis`. -/
structure SuseEdgeAnalysis where
  components : List SuseEdgeComponent
  total_components : Nat
  confidence : String
  deployment_type : String
  kubernetes_distribution : Option String
deriving Repr, DecidableEq

/-- The aggregated resource maps (`HashMap<String, Vec<Value>>`). -/
abbrev ResourceMap := List (String × List Json)

/-- `HashMap::get` on a resource map. -/
def rmGet : ResourceMap → String → Option (List Json)
  | [], _ => none
  | (k, v) :: rest, key => if k = key then some v else rmGet rest key

/-- `get_resource_name`. -/
def get_resource_name (resource : Json) : Option String :=
  ((resource.get? "metadata").bind (fun m => m.get? "name")).bind Json.asStr

/-- `get_resource_namespace`. -/
def get_resource_namespace (resource : Json) : Option String :=
  ((resource.get? "metadata").bind (fun m => m.get? "namespace")).bind Json.asStr

/-- `status.nodeInfo.kubeletVersion` as a string. -/
def kubeletVersion (node : Json) : Option String :=
  (((node.get? "status").bind (fun s => s.get? "nodeInfo")).bind
    (fun ni => ni.get? "kubeletVersion")).bind Json.asStr

/-- `extract_k3s_version_from_nodes`: first kubelet version containing "k3s",
else the literal placeholder. -/
def extract_k3s_version_from_nodes : List Json → Option String
  | [] => some "detected"
  | node :: rest =>
    match kubeletVersion node with
    | some version =>
      if strContains version "k3s" then some version else extract_k3s_version_from_nodes rest
    | none => extract_k3s_version_from_nodes rest

/-- `extract_rke2_version_precise`: first kubelet version string, else placeholder. -/
def extract_rke2_version_precise : List Json → Option String
  | [] => some "detected"
  | node :: rest =>
    match kubeletVersion node with
    | some version => some version
    | none => extract_rke2_version_precise rest

/-- The RKE2 node-label test: label key `rke2.io/hostname` present, or any
label value containing "rke2". -/
def nodeHasRke2Label (node : Json) : Bool :=
  match (node.get? "metadata").bind (fun m => m.get? "labels") with
  | some (.obj labels) =>
    labels.any (fun kv => kv.1 == "rke2.io/hostname")
      || labels.any (fun kv =>
           match kv.2.asStr with
           | some s => strContains s "rke2"
           | none => false)
  | _ => false

/-- The fallback loop: first node whose kubelet version contains "rke2". -/
def findRke2Kubelet : List Json → Option String
  | [] => none
  | node :: rest =>
    match kubeletVersion node with
    | some version =>
      if strContains version "rke2" then some version else findRke2Kubelet rest
    | none => findRke2Kubelet rest

/-- `detect_kubernetes_distribution_precise`. -/
def detect_kubernetes_distribution_precise (_namespaced_resources cluster_resources :
    ResourceMap) : Option SuseEdgeComponent :=
  let k3sFound :=
    match rmGet cluster_resources "clusterroles" with
    | some cluster_roles =>
      cluster_roles.any (fun role => get_resource_name role == some "system:k3s-controller")
    | none => false
  if k3sFound then
    let version :=
      match rmGet cluster_resources "nodes" with
      | some nodes => (extract_k3s_version_from_nodes nodes).getD "detected"
      | none => "detected"
    some { name := "K3s", version := some version,
           found_in := ["Detected via cluster roles and node version"], category := "Core" }
  else
    match rmGet cluster_resources "nodes" with
    | some nodes =>
      if nodes.any nodeHasRke2Label then
        some { name := "RKE2",
               version := some ((extract_rke2_version_precise nodes).getD "detected"),
               found_in := ["Detected via node labels and version"], category := "Core" }
      else
        match findRke2Kubelet nodes with
        | some version =>
          some { name := "RKE2", version := some version,
                 found_in := ["Detected via kubelet version"], category := "Core" }
        | none => none
    | none => none

/-- The fixed table of well-known SUSE Edge definition groups. -/
def suse_edge_crds : List (String × String × String) :=
  [("longhorn.io", "SUSE Storage (Longhorn)", "Storage"),
   ("neuvector.com", "SUSE Security (NeuVector)", "Security"),
   ("kubevirt.io", "KubeVirt", "Virtualization"),
   ("cdi.kubevirt.io", "Containerized Data Importer", "Virtualization"),
   ("metal3.io", "Metal3", "Infrastructure"),
   ("elemental.cattle.io", "Elemental", "Infrastructure"),
   ("akri.sh", "Akri", "IoT")]

/-- `detect_suse_edge_crds_precise`: one observation per table row with a
positive count of matching definitions. -/
def detect_suse_edge_crds_precise (cluster_resources : ResourceMap) :
    Option (List SuseEdgeComponent) :=
  match rmGet cluster_resources "customresourcedefinitions" with
  | some crds =>
    let components := suse_edge_crds.filterMap (fun row =>
      let count := (crds.filter (fun crd =>
        match get_resource_name crd with
        | some name => strContains name row.1
        | none => false)).length
      if count > 0 then
        some { name := row.2.1, version := none,
               found_in := [toString count ++ " CRDs detected"], category := row.2.2 }
      else none)
    if components.isEmpty then none else some components
  | none => none

/-- First container image version that looks semantic (`extract_semantic_version`
over the deployment's containers, in order). -/
def firstSemanticVersion : List Json → Option String
  | [] => none
  | container :: rest =>
    match (container.get? "image").bind Json.asStr with
    | some image =>
      match
        (match (image.splitOn ":").getLast? with
         | some tag =>
           if strStarts tag "v" && strContains tag "." && !(strContains tag "sha256") then
             some tag
           else none
         | none => none) with
      | some version => some version
      | none => firstSemanticVersion rest
    | none => firstSemanticVersion rest

/-- `extract_containers_from_resource`: `spec.template.spec.containers` with a
fallback to `spec.containers`. -/
def extract_containers_from_resource (resource : Json) : Option (List Json) :=
  match ((((resource.get? "spec").bind (fun s => s.get? "template")).bind
      (fun t => t.get? "spec")).bind (fun s => s.get? "containers")).bind Json.asArr with
  | some containers => some containers
  | none => (((resource.get? "spec").bind (fun s => s.get? "containers")).bind Json.asArr)

/-- `extract_version_from_deployment`. -/
def extract_version_from_deployment (deployment : Json) : Option String :=
  match extract_containers_from_resource deployment with
  | some containers => firstSemanticVersion containers
  | none => none

/-- `detect_core_suse_components`: Rancher deployments in `cattle-system`,
then Longhorn deployments in `longhorn-system`. -/
def detect_core_suse_components (namespaced_resources : ResourceMap) :
    Option (List SuseEdgeComponent) :=
  let rancher :=
    match rmGet namespaced_resources "deployments" with
    | some deployments => deployments.filterMap (fun deployment =>
        match get_resource_namespace deployment with
        | some ns =>
          if ns = "cattle-system" then
            match get_resource_name deployment with
            | some name =>
              if strContains name "rancher" then
                some { name := "SUSE Rancher Prime",
                       version := extract_version_from_deployment deployment,
                       found_in := ["cattle-system/" ++ name], category := "Management" }
              else none
            | none => none
          else none
        | none => none)
    | none => []
  let longhorn :=
    match rmGet namespaced_resources "deployments" with
    | some deployments => deployments.filterMap (fun deployment =>
        match get_resource_namespace deployment with
        | some ns =>
          if ns = "longhorn-system" then
            match get_resource_name deployment with
            | some name =>
              if strContains name "longhorn" then
                some { name := "SUSE Storage (Longhorn)",
                       version := extract_version_from_deployment deployment,
                       found_in := ["longhorn-system/" ++ name], category := "Storage" }
              else none
            | none => none
          else none
        | none => none)
    | none => []
  let components := rancher ++ longhorn
  if components.isEmpty then none else some components

/-- The known vendor registry hosts. -/
def suse_registries : List String := ["registry.suse.com", "registry.opensuse.org"]

/-- Containers of one resource whose image starts with a vendor registry host. -/
def resourceSuseImageCount (resource : Json) : Nat :=
  match extract_containers_from_resource resource with
  | some containers =>
    (containers.filter (fun container =>
      match (container.get? "image").bind Json.asStr with
      | some image => suse_registries.any (fun reg => strStarts image reg)
      | none => false)).length
  | none => 0

/-- `detect_suse_registry_usage_precise`: one aggregate observation when any
pod or deployment container uses a vendor registry image. -/
def detect_suse_registry_usage_precise (namespaced_resources : ResourceMap) :
    Option SuseEdgeComponent :=
  let suse_image_count := namespaced_resources.foldl (fun acc entry =>
    if entry.1 = "pods" || entry.1 = "deployments" then
      acc + (entry.2.map resourceSuseImageCount).sum
    else acc) 0
  if suse_image_count > 0 then
    some { name := "SUSE Container Images", version := none,
           found_in := [toString suse_image_count ++ " SUSE images in use"],
           category := "Infrastructure" }
  else none

/-- `determine_confidence_level_conservative`: the priority-ordered range match. -/
def determine_confidence_level_conservative (confidence_score component_count : Nat) : String :=
  if 60 ≤ confidence_score && 5 ≤ component_count then "Very High"
  else if 40 ≤ confidence_score && 3 ≤ component_count then "High"
  else if 20 ≤ confidence_score && 2 ≤ component_count then "Medium"
  else if 10 ≤ confidence_score && 1 ≤ component_count then "Low"
  else "Minimal"

/-- `determine_deployment_type_precise`. -/
def determine_deployment_type_precise (components : List SuseEdgeComponent) : String :=
  let has_rancher := components.any (fun c => strContains c.name "Rancher")
  let has_metal3 := components.any (fun c => strContains c.name "Metal3")
  let has_elemental := components.any (fun c => strContains c.name "Elemental")
  let has_k8s_dist := components.any (fun c => c.name == "K3s" || c.name == "RKE2")
  match has_rancher, has_metal3, has_elemental, has_k8s_dist with
  | true, true, _, _ => "Management Cluster"
  | true, false, true, _ => "Elemental Management Cluster"
  | true, false, false, _ => "Rancher Management Cluster"
  | false, _, _, true => "Downstream Cluster"
  | _, _, _, _ => "Standalone Cluster"

/-- `detect_suse_edge_components`: run the four detectors in order, accumulate
observations and the weighted confidence score, and build the analysis unless
nothing was detected. -/
def detect_suse_edge_components (namespaced_resources cluster_resources : ResourceMap) :
    Option SuseEdgeAnalysis :=
  let distOpt := detect_kubernetes_distribution_precise namespaced_resources cluster_resources
  let crdOpt := detect_suse_edge_crds_precise cluster_resources
  let coreOpt := detect_core_suse_components namespaced_resources
  let regOpt := detect_suse_registry_usage_precise namespaced_resources
  let detected_components :=
    distOpt.toList
      ++ (match crdOpt with | some l => l | none => [])
      ++ (match coreOpt with | some l => l | none => [])
      ++ regOpt.toList
  let detection_confidence :=
    (match distOpt with | some _ => 20 | none => 0)
      + (match crdOpt with | some l => 15 * l.length | none => 0)
      + (match coreOpt with | some l => 10 * l.length | none => 0)
      + (match regOpt with | some _ => 5 | none => 0)
  let kubernetes_distribution := distOpt.map (fun c => c.name)
  if detected_components.isEmpty then none
  else
    some { components := detected_components,
           total_components := detected_components.length,
           confidence := determine_confidence_level_conservative detection_confidence
             detected_components.length,
           deployment_type := determine_deployment_type_precise detected_components,
           kubernetes_distribution := kubernetes_distribution }

/-! ## Custom-resource resolution (`k8s.rs`) -/

/-- `CustomResourceInfo`. -/
structure CustomResourceInfo where
  group : String
  version : String
  plural : String
  namespaced : Bool
deriving Repr, DecidableEq

/-- One entry of the discovery document: an available API resource's plural
name together with its scope (`true` for namespaced). -/
structure DiscoveryEntry where
  plural : String
  namespaced : Bool
deriving Repr, DecidableEq

/-- A remote call performed during a collection run. -/
inductive Step where
  | runDiscovery : Step
  | listDiscNs (plural ns : String) : Step
  | listDiscCluster (plural : String) : Step
  | listCrdNs (api_version plural ns : String) : Step
  | listCrdCluster (api_version plural : String) : Step
deriving Repr, DecidableEq

/-- The Kubernetes transport as seen by the resolver: the discovery fetch and
the four dynamic listing calls, each fallible with a message. -/
structure ClusterEnv where
  discovery : Except String (List DiscoveryEntry)
  listDiscNs : String → String → Except String (List Json)
  listDiscCluster : String → Except String (List Json)
  listCrdNs : String → String → String → Except String (List Json)
  listCrdCluster : String → String → Except String (List Json)

/-- The first-served-version loop of `parse_crd_info`: entries are considered
only when both `name` is a string and `served` is a boolean. -/
def firstServed : List Json → Option String
  | [] => none
  | version :: rest =>
    match (version.get? "name").bind Json.asStr, (version.get? "served").bind Json.asBool with
    | some version_name, some served =>
      if served then some version_name else firstServed rest
    | _, _ => firstServed rest

/-- `parse_crd_info`: extract `{group, version, plural, namespaced}` from a
custom-resource-definition document; `Ok(None)` when no version is served. -/
def parse_crd_info (crd : Json) : Except String (Option CustomResourceInfo) :=
  match crd.get? "metadata" with
  | none => .error "Missing metadata"
  | some metadata =>
    match crd.get? "spec" with
    | none => .error "Missing spec"
    | some spec =>
      match (metadata.get? "name").bind Json.asStr with
      | none => .error "Missing CRD name"
      | some _name =>
        let group := ((spec.get? "group").bind Json.asStr).getD ""
        match spec.get? "names" with
        | none => .error "Missing names section"
        | some names =>
          match (names.get? "plural").bind Json.asStr with
          | none => .error "Missing plural name"
          | some plural =>
            let scope := ((spec.get? "scope").bind Json.asStr).getD "Namespaced"
            let namespaced := scope == "Namespaced"
            match (spec.get? "versions").bind Json.asArr with
            | none => .error "Missing versions"
            | some versions =>
              match firstServed versions with
              | some version_name =>
                .ok (some { group := group, version := version_name, plural := plural,
                            namespaced := namespaced })
              | none => .ok none

/-- `collect_namespaced_custom_resource_discovery`: search the discovery
snapshot for a namespaced entry with the plural, then list dynamically; a
missing entry is the source's "API resource not found in discovery" error. -/
def collect_namespaced_custom_resource_discovery (env : ClusterEnv)
    (discovery : List DiscoveryEntry) (plural ns : String) :
    List Step × Except String (List Json) :=
  match discovery.find? (fun e => e.plural == plural && e.namespaced) with
  | some _ => ([Step.listDiscNs plural ns], env.listDiscNs plural ns)
  | none => ([], .error ("API resource not found in discovery: " ++ plural))

/-- `collect_cluster_custom_resource_discovery`: the cluster-scoped analogue. -/
def collect_cluster_custom_resource_discovery (env : ClusterEnv)
    (discovery : List DiscoveryEntry) (plural : String) :
    List Step × Except String (List Json) :=
  match discovery.find? (fun e => e.plural == plural && !e.namespaced) with
  | some _ => ([Step.listDiscCluster plural], env.listDiscCluster plural)
  | none => ([], .error ("API resource not found in discovery: " ++ plural))

/-- Phase 1, `collect_custom_resource_instances_discovery`: fetch the discovery
document, then per-namespace (or cluster-wide) listing with per-call failure
containment; the function itself fails only when the discovery fetch fails. -/
def collect_custom_resource_instances_discovery (env : ClusterEnv)
    (cr_info : CustomResourceInfo) (namespaces : List String) :
    List Step × Except String (List Json) :=
  match env.discovery with
  | .error e => ([Step.runDiscovery], .error e)
  | .ok discovery =>
    if cr_info.namespaced then
      let r := namespaces.foldl (fun (acc : List Step × List Json) ns =>
        match collect_namespaced_custom_resource_discovery env discovery cr_info.plural ns with
        | (t, .ok instances) => (acc.1 ++ t, acc.2 ++ instances)
        | (t, .error _) => (acc.1 ++ t, acc.2)) ([], [])
      (Step.runDiscovery :: r.1, .ok r.2)
    else
      match collect_cluster_custom_resource_discovery env discovery cr_info.plural with
      | (t, .ok instances) => (Step.runDiscovery :: t, .ok instances)
      | (t, .error _) => (Step.runDiscovery :: t, .ok [])

/-- The `api_version` string built by the fallback. -/
def crdApiVersion (cr_info : CustomResourceInfo) : String :=
  if cr_info.group.isEmpty then cr_info.version else cr_info.group ++ "/" ++ cr_info.version

/-- Phase 2, `collect_custom_resource_instances_crd_based`: list through a
manually constructed endpoint, again with per-call failure containment; every
path returns `Ok`. -/
def collect_custom_resource_instances_crd_based (env : ClusterEnv)
    (cr_info : CustomResourceInfo) (namespaces : List String) :
    List Step × Except String (List Json) :=
  let api_version := crdApiVersion cr_info
  if cr_info.namespaced then
    let r := namespaces.foldl (fun (acc : List Step × List Json) ns =>
      match env.listCrdNs api_version cr_info.plural ns with
      | .ok instances =>
        (acc.1 ++ [Step.listCrdNs api_version cr_info.plural ns], acc.2 ++ instances)
      | .error _ => (acc.1 ++ [Step.listCrdNs api_version cr_info.plural ns], acc.2)) ([], [])
    (r.1, .ok r.2)
  else
    match env.listCrdCluster api_version cr_info.plural with
    | .ok instances => ([Step.listCrdCluster api_version cr_info.plural], .ok instances)
    | .error _ => ([Step.listCrdCluster api_version cr_info.plural], .ok [])

/-- `collect_custom_resource_instances_hybrid`: phase 1, falling back to
phase 2 exactly when phase 1 returns an error. -/
def collect_custom_resource_instances_hybrid (env : ClusterEnv)
    (cr_info : CustomResourceInfo) (namespaces : List String) :
    List Step × Except String (List Json) :=
  match collect_custom_resource_instances_discovery env cr_info namespaces with
  | (t1, .ok instances) => (t1, .ok instances)
  | (t1, .error _) =>
    let r := collect_custom_resource_instances_crd_based env cr_info namespaces
    (t1 ++ r.1, r.2)

/-- The key under which a custom type's instances are stored. -/
def resource_key (cr_info : CustomResourceInfo) : String :=
  if cr_info.group.isEmpty then cr_info.plural
  else cr_info.plural ++ "." ++ cr_info.group

/-- One iteration of the `collect_all_custom_resources` loop over the parsed
definitions: definitions without a usable descriptor are passed over, empty
instance lists are not inserted, and hybrid failures are contained. -/
def collect_all_step (env : ClusterEnv) (namespaces : List String)
    (acc : List Step × List (String × List Json)) (crd : Json) :
    List Step × List (String × List Json) :=
  match parse_crd_info crd with
  | .ok (some cr_info) =>
    match collect_custom_resource_instances_hybrid env cr_info namespaces with
    | (t, .ok instances) =>
      if instances.isEmpty then (acc.1 ++ t, acc.2)
      else (acc.1 ++ t, acc.2 ++ [(resource_key cr_info, instances)])
    | (t, .error _) => (acc.1 ++ t, acc.2)
  | _ => acc

/-- `collect_all_custom_resources` over an already-collected definition list:
the run's step trace and the resulting map of instances. -/
def collect_all_custom_resources (env : ClusterEnv) (crds : List Json)
    (namespaces : List String) : List Step × List (String × List Json) :=
  crds.foldl (collect_all_step env namespaces) ([], [])

/-- The number of discovery-document fetches in a step trace. -/
def countRunDiscovery (trace : List Step) : Nat :=
  (trace.filter (fun s => match s with | .runDiscovery => true | _ => false)).length

/-! ## Concrete example inputs used by the closed theorems -/

/-- An environment whose discovery document is reachable but lists no API
resources, while the definition-based endpoint for widgets would work. -/
def envNoEntry : ClusterEnv :=
  { discovery := .ok []
    listDiscNs := fun _ _ => .error "unreachable"
    listDiscCluster := fun _ => .error "unreachable"
    listCrdNs := fun _ _ _ => .ok [Json.str "phantom-instance"]
    listCrdCluster := fun _ _ => .ok [] }

/-- An environment whose discovery fetch itself fails. -/
def envDiscoveryDown : ClusterEnv :=
  { discovery := .error "connection refused"
    listDiscNs := fun _ _ => .error "unreachable"
    listDiscCluster := fun _ => .error "unreachable"
    listCrdNs := fun _ _ _ => .ok [Json.str "fallback-instance"]
    listCrdCluster := fun _ _ => .ok [] }

/-- A namespaced descriptor for `widgets.example.io/v1`. -/
def widgetInfo : CustomResourceInfo :=
  { group := "example.io", version := "v1", plural := "widgets", namespaced := true }

/-- A well-formed definition document for `widgets.example.io` with one served
version. -/
def widgetCrd : Json :=
  Json.obj [("metadata", Json.obj [("name", Json.str "widgets.example.io")]),
    ("spec", Json.obj [("group", Json.str "example.io"),
      ("names", Json.obj [("plural", Json.str "widgets")]),
      ("scope", Json.str "Namespaced"),
      ("versions", Json.arr [Json.obj [("name", Json.str "v1"),
        ("served", Json.bool true)]])])]

/-- A definition document whose only version entry is not served. -/
def unservedCrd : Json :=
  Json.obj [("metadata", Json.obj [("name", Json.str "gadgets.example.io")]),
    ("spec", Json.obj [("group", Json.str "example.io"),
      ("names", Json.obj [("plural", Json.str "gadgets")]),
      ("scope", Json.str "Namespaced"),
      ("versions", Json.arr [Json.obj [("name", Json.str "v1alpha1"),
        ("served", Json.bool false)]])])]

/-- The version list of `unservedCrd`. -/
def unservedVersions : List Json :=
  [Json.obj [("name", Json.str "v1alpha1"), ("served", Json.bool false)]]

/-- A Service document exercising the nodePort boundary: one auto-assigned
port (30000) and one explicit port (29999), plus cluster-assigned addresses. -/
def exampleServiceFields : Fields :=
  [("kind", Json.str "Service"),
   ("metadata", Json.obj [("name", Json.str "svc1")]),
   ("spec", Json.obj [("clusterIP", Json.str "10.0.0.1"),
     ("clusterIPs", Json.arr [Json.str "10.0.0.1"]),
     ("ports", Json.arr [Json.obj [("port", Json.num 80), ("nodePort", Json.num 30000)],
       Json.obj [("port", Json.num 443), ("nodePort", Json.num 29999)]])])]

/-- The spec fields of `exampleServiceFields`. -/
def exampleServiceSpec : Fields :=
  [("clusterIP", Json.str "10.0.0.1"),
   ("clusterIPs", Json.arr [Json.str "10.0.0.1"]),
   ("ports", Json.arr [Json.obj [("port", Json.num 80), ("nodePort", Json.num 30000)],
     Json.obj [("port", Json.num 443), ("nodePort", Json.num 29999)]])]

/-- A resource document carrying a namespace but no `metadata.name`. -/
def namelessDoc : Json :=
  Json.obj [("kind", Json.str "ConfigMap"),
    ("metadata", Json.obj [("namespace", Json.str "default")])]

/-- A well-formed ConfigMap document. -/
def namedDoc : Json :=
  Json.obj [("kind", Json.str "ConfigMap"),
    ("metadata", Json.obj [("name", Json.str "cm1")])]

/-- Cluster resources containing only the K3s marker cluster role. -/
def k3sClusterResources : ResourceMap :=
  [("clusterroles", [Json.obj [("metadata",
    Json.obj [("name", Json.str "system:k3s-controller")])]])]

/-- The K3s observation produced on `k3sClusterResources`. -/
def k3sObservation : SuseEdgeComponent :=
  { name := "K3s", version := some "detected",
    found_in := ["Detected via cluster roles and node version"], category := "Core" }

/-- The analysis the detector produces on `k3sClusterResources` alone. -/
def k3sOnlyAnalysis : SuseEdgeAnalysis :=
  { components := [k3sObservation],
    total_components := 1,
    confidence := "Low",
    deployment_type := "Downstream Cluster",
    kubernetes_distribution := some "K3s" }

/-- The stats invariant: the skipped counter mirrors the skipped list, and
sanitized plus skipped documents never exceed the processed count. -/
def StatsInv (s : SanitizationStats) : Prop :=
  s.total_skipped = s.skipped_resources.length
    ∧ s.total_sanitized + s.total_skipped ≤ s.total_processed

/-- The confidence table exactly as the specification words it: a
priority-ordered list of (score threshold, component-count threshold) rows,
most specific first. -/
def confidence_label_table (score count : Nat) : String :=
  if 60 ≤ score ∧ 5 ≤ count then "Very High"
  else if 40 ≤ score ∧ 3 ≤ count then "High"
  else if 20 ≤ score ∧ 2 ≤ count then "Medium"
  else if 10 ≤ score ∧ 1 ≤ count then "Low"
  else "Minimal"

/-- The deployment-topology table exactly as the specification words it. -/
def deployment_type_table (components : List SuseEdgeComponent) : String :=
  let has_rancher := components.any (fun c => strContains c.name "Rancher")
  let has_metal3 := components.any (fun c => strContains c.name "Metal3")
  let has_elemental := components.any (fun c => strContains c.name "Elemental")
  let has_k8s_dist := components.any (fun c => c.name == "K3s" || c.name == "RKE2")
  if has_rancher && has_metal3 then "Management Cluster"
  else if has_rancher && has_elemental then "Elemental Management Cluster"
  else if has_rancher then "Rancher Management Cluster"
  else if has_k8s_dist then "Downstream Cluster"
  else "Standalone Cluster"

/-- Number of observations in an optional observation list. -/
def obsLen (o : Option (List SuseEdgeComponent)) : Nat :=
  match o with
  | some l => l.length
  | none => 0

/-- 1 when an optional observation is present. -/
def obsFlag {α : Type} (o : Option α) : Nat :=
  if o.isSome then 1 else 0

/-- The `spec.versions` array of a definition document. -/
def crdVersions (crd : Json) : Option (List Json) :=
  ((crd.get? "spec").bind (fun s => s.get? "versions")).bind Json.asArr

/-- Whether a definition document parses to a usable descriptor. -/
def parsesToDescriptor (crd : Json) : Bool :=
  match parse_crd_info crd with
  | .ok (some _) => true
  | _ => false

/-! ## Association-list lemmas for the object operations -/

theorem findField_removeField_self (key : String) (l : Fields) :
    findField (removeField key l) key = none := by
  induction l with
  | nil => rfl
  | cons p rest ih =>
    obtain ⟨k, v⟩ := p
    by_cases h : k = key <;> simp [removeField, findField, h, ih]

theorem findField_removeField_ne (key q : String) (l : Fields) (h : q ≠ key) :
    findField (removeField key l) q = findField l q := by
  induction l with
  | nil => rfl
  | cons p rest ih =>
    obtain ⟨k, v⟩ := p
    by_cases hk : k = key
    · subst hk; simp [removeField, findField, Ne.symm h, ih]
    · by_cases hq : k = q
      · subst hq; simp [removeField, findField, hk, ih]
      · simp [removeField, findField, hk, hq, ih]

theorem findField_modifyField_ne (key q : String) (f : Json → Json) (l : Fields)
    (h : q ≠ key) : findField (modifyField key f l) q = findField l q := by
  induction l with
  | nil => rfl
  | cons p rest ih =>
    obtain ⟨k, v⟩ := p
    by_cases hk : k = key
    · subst hk; simp [modifyField, findField, Ne.symm h, ih]
    · by_cases hq : k = q
      · subst hq; simp [modifyField, findField, hk, ih]
      · simp [modifyField, findField, hk, hq, ih]

theorem findField_modifyField_self (key : String) (f : Json → Json) (l : Fields) :
    findField (modifyField key f l) key = (findField l key).map f := by
  induction l with
  | nil => rfl
  | cons p rest ih =>
    obtain ⟨k, v⟩ := p
    by_cases hk : k = key <;> simp [modifyField, findField, hk, ih]

theorem removeField_removeField (key : String) (l : Fields) :
    removeField key (removeField key l) = removeField key l := by
  induction l with
  | nil => rfl
  | cons p rest ih =>
    obtain ⟨k, v⟩ := p
    by_cases h : k = key <;> simp [removeField, h, ih]

theorem removeField_comm (a b : String) (l : Fields) :
    removeField a (removeField b l) = removeField b (removeField a l) := by
  induction l with
  | nil => rfl
  | cons p rest ih =>
    obtain ⟨k, v⟩ := p
    by_cases ha : k = a
    · subst ha
      by_cases hb : k = b
      · subst hb; simp [removeField, ih]
      · simp [removeField, hb, ih]
    · by_cases hb : k = b
      · subst hb; simp [removeField, ha, ih]
      · simp [removeField, ha, hb, ih]

theorem modifyField_modifyField (key : String) (f g : Json → Json) (l : Fields) :
    modifyField key f (modifyField key g l) = modifyField key (fun v => f (g v)) l := by
  induction l with
  | nil => rfl
  | cons p rest ih =>
    obtain ⟨k, v⟩ := p
    by_cases h : k = key <;> simp [modifyField, h, ih]

theorem modifyField_ext (key : String) (f g : Json → Json) (l : Fields)
    (h : ∀ v, f v = g v) : modifyField key f l = modifyField key g l := by
  induction l with
  | nil => rfl
  | cons p rest ih =>
    obtain ⟨k, v⟩ := p
    by_cases hk : k = key <;> simp [modifyField, hk, ih, h]

theorem modifyField_comm (a b : String) (f g : Json → Json) (l : Fields) (h : a ≠ b) :
    modifyField a f (modifyField b g l) = modifyField b g (modifyField a f l) := by
  induction l with
  | nil => rfl
  | cons p rest ih =>
    obtain ⟨k, v⟩ := p
    by_cases ha : k = a
    · subst ha; simp [modifyField, h, Ne.symm h, ih]
    · by_cases hb : k = b
      · subst hb; simp [modifyField, ha, ih]
      · simp [modifyField, ha, hb, ih]

theorem removeField_modifyField_ne (a b : String) (f : Json → Json) (l : Fields)
    (h : a ≠ b) : removeField a (modifyField b f l) = modifyField b f (removeField a l) := by
  induction l with
  | nil => rfl
  | cons p rest ih =>
    obtain ⟨k, v⟩ := p
    by_cases ha : k = a
    · subst ha; simp [modifyField, removeField, h, Ne.symm h, ih]
    · by_cases hb : k = b
      · subst hb; simp [modifyField, removeField, ha, ih]
      · simp [modifyField, removeField, ha, hb, ih]

theorem removeField_of_findField_none (key : String) (l : Fields)
    (h : findField l key = none) : removeField key l = l := by
  induction l with
  | nil => rfl
  | cons p rest ih =>
    obtain ⟨k, v⟩ := p
    by_cases hk : k = key
    · simp [findField, hk] at h
    · simp [findField, hk] at h
      simp [removeField, hk, ih h]

theorem modifyField_eq_self (key : String) (f : Json → Json) (l : Fields)
    (h : ∀ p ∈ l, p.1 = key → f p.2 = p.2) : modifyField key f l = l := by
  induction l with
  | nil => rfl
  | cons p rest ih =>
    obtain ⟨k, v⟩ := p
    have hrest : ∀ p ∈ rest, p.1 = key → f p.2 = p.2 :=
      fun p hp => h p (List.mem_cons_of_mem _ hp)
    by_cases hk : k = key
    · have hv := h (k, v) (List.mem_cons_self _ _) hk
      simp at hv
      simp [modifyField, hk, hv, ih hrest]
    · simp [modifyField, hk, ih hrest]

theorem mem_removeField (key : String) (l : Fields) (p : String × Json)
    (h : p ∈ removeField key l) : p ∈ l := by
  induction l with
  | nil => simp [removeField] at h
  | cons q rest ih =>
    obtain ⟨k, v⟩ := q
    by_cases hk : k = key
    · simp [removeField, hk] at h
      exact List.mem_cons_of_mem _ (ih h)
    · simp [removeField, hk] at h
      rcases h with h | h
      · simp [h]
      · exact List.mem_cons_of_mem _ (ih h)

theorem mem_modifyField_of_ne (key : String) (f : Json → Json) (l : Fields)
    (p : String × Json) (h : p ∈ modifyField key f l) (hne : p.1 ≠ key) : p ∈ l := by
  induction l with
  | nil => simp [modifyField] at h
  | cons q rest ih =>
    obtain ⟨k, v⟩ := q
    by_cases hk : k = key
    · subst hk
      simp [modifyField] at h
      rcases h with h | h
      · exact absurd (by simp [h]) hne
      · exact List.mem_cons_of_mem _ (ih h)
    · simp [modifyField, hk] at h
      rcases h with h | h
      · simp [h]
      · exact List.mem_cons_of_mem _ (ih h)

theorem mem_modifyField_const (key : String) (c : Json) (l : Fields)
    (p : String × Json) (h : p ∈ modifyField key (fun _ => c) l) (hk : p.1 = key) :
    p.2 = c := by
  induction l with
  | nil => simp [modifyField] at h
  | cons q rest ih =>
    obtain ⟨k, v⟩ := q
    by_cases hq : k = key
    · subst hq
      simp [modifyField] at h
      rcases h with h | h
      · simp [h]
      · exact ih h
    · simp [modifyField, hq] at h
      rcases h with h | h
      · exact absurd (by simp [h] at hk ⊢; exact hk) hq
      · exact ih h

theorem filter_filter_self {α : Type} (p : α → Bool) (l : List α) :
    (l.filter p).filter p = l.filter p := by
  induction l with
  | nil => rfl
  | cons a rest ih =>
    by_cases h : p a <;> simp [List.filter_cons, h, ih]

/-! ## Sanitizer idempotence -/

theorem findField_cleanAnnots_ne (l : Fields) (q : String) (h : q ≠ "annotations") :
    findField (cleanAnnots l) q = findField l q := by
  rcases ha : findField l "annotations" with _ | v
  · simp [cleanAnnots, ha]
  · rcases v with _ | b | n | s | es | a
    case obj =>
      cases he : (a.filter (fun kv => annotKeyKept kv.1)).isEmpty with
      | false => simp [cleanAnnots, ha, he, findField_modifyField_ne _ _ _ _ h]
      | true => simp [cleanAnnots, ha, he, findField_removeField_ne _ _ _ h]
    all_goals simp [cleanAnnots, ha]

theorem findField_cleanFinals_ne (l : Fields) (q : String) (h : q ≠ "finalizers") :
    findField (cleanFinals l) q = findField l q := by
  rcases hf : findField l "finalizers" with _ | v
  · simp [cleanFinals, hf]
  · rcases v with _ | b | n | s | fs | o
    case arr =>
      cases he : (fs.filter finalizerKept).isEmpty with
      | false => simp [cleanFinals, hf, he, findField_modifyField_ne _ _ _ _ h]
      | true => simp [cleanFinals, hf, he, findField_removeField_ne _ _ _ h]
    all_goals simp [cleanFinals, hf]

theorem mem_cleanFinals_of_ne (l : Fields) (p : String × Json)
    (h : p ∈ cleanFinals l) (hne : p.1 ≠ "finalizers") : p ∈ l := by
  rcases hf : findField l "finalizers" with _ | v
  · simpa [cleanFinals, hf] using h
  · rcases v with _ | b | n | s | fs | o
    case arr =>
      cases he : (fs.filter finalizerKept).isEmpty with
      | false =>
        rw [cleanFinals, hf] at h
        simp [he] at h
        exact mem_modifyField_of_ne _ _ _ _ h hne
      | true =>
        rw [cleanFinals, hf] at h
        simp [he] at h
        exact mem_removeField _ _ _ h
    all_goals simpa [cleanFinals, hf] using h

theorem cleanFinals_cleanFinals (l : Fields) :
    cleanFinals (cleanFinals l) = cleanFinals l := by
  rcases hf : findField l "finalizers" with _ | v
  · have h1 : cleanFinals l = l := by simp [cleanFinals, hf]
    rw [h1]; exact h1
  · rcases v with _ | b | n | s | fs | o
    case arr =>
      cases he : (fs.filter finalizerKept).isEmpty with
      | false =>
        have h1 : cleanFinals l
            = modifyField "finalizers" (fun _ => Json.arr (fs.filter finalizerKept)) l := by
          simp [cleanFinals, hf, he]
        rw [h1]
        have h2 : findField
            (modifyField "finalizers" (fun _ => Json.arr (fs.filter finalizerKept)) l)
            "finalizers" = some (Json.arr (fs.filter finalizerKept)) := by
          rw [findField_modifyField_self, hf]; rfl
        rw [cleanFinals, h2]
        simp [filter_filter_self, he]
        exact modifyField_eq_self _ _ _
          (fun p hp hk => (mem_modifyField_const _ _ _ _ hp hk).symm)
      | true =>
        have h1 : cleanFinals l = removeField "finalizers" l := by
          simp [cleanFinals, hf, he]
        rw [h1]
        have h2 : findField (removeField "finalizers" l) "finalizers" = none :=
          findField_removeField_self _ _
        simp [cleanFinals, h2]
    all_goals
      (have h1 : cleanFinals l = l := by simp [cleanFinals, hf]
       rw [h1]; exact h1)

theorem cleanAnnots_stable (l : Fields) :
    cleanAnnots (cleanFinals (cleanAnnots l)) = cleanFinals (cleanAnnots l) := by
  rcases ha : findField l "annotations" with _ | v
  · have h1 : cleanAnnots l = l := by simp [cleanAnnots, ha]
    rw [h1]
    have h2 : findField (cleanFinals l) "annotations" = none := by
      rw [findField_cleanFinals_ne _ _ (by decide), ha]
    simp [cleanAnnots, h2]
  · rcases v with _ | b | n | s | es | a
    case obj =>
      cases he : (a.filter (fun kv => annotKeyKept kv.1)).isEmpty with
      | false =>
        have h1 : cleanAnnots l
            = modifyField "annotations"
                (fun _ => Json.obj (a.filter (fun kv => annotKeyKept kv.1))) l := by
          simp [cleanAnnots, ha, he]
        rw [h1]
        have h2 : findField
            (cleanFinals (modifyField "annotations"
              (fun _ => Json.obj (a.filter (fun kv => annotKeyKept kv.1))) l))
            "annotations" = some (Json.obj (a.filter (fun kv => annotKeyKept kv.1))) := by
          rw [findField_cleanFinals_ne _ _ (by decide), findField_modifyField_self, ha]; rfl
        rw [cleanAnnots, h2]
        simp [filter_filter_self, he]
        refine modifyField_eq_self _ _ _ (fun p hp hk => ?_)
        have hpm : p ∈ modifyField "annotations"
            (fun _ => Json.obj (a.filter (fun kv => annotKeyKept kv.1))) l :=
          mem_cleanFinals_of_ne _ _ hp (by rw [hk]; decide)
        exact (mem_modifyField_const _ _ _ _ hpm hk).symm
      | true =>
        have h1 : cleanAnnots l = removeField "annotations" l := by
          simp [cleanAnnots, ha, he]
        rw [h1]
        have h2 : findField (cleanFinals (removeField "annotations" l)) "annotations"
            = none := by
          rw [findField_cleanFinals_ne _ _ (by decide)]
          exact findField_removeField_self _ _
        simp [cleanAnnots, h2]
    all_goals
      (have h1 : cleanAnnots l = l := by simp [cleanAnnots, ha]
       rw [h1]
       have h2 : findField (cleanFinals l) "annotations" = findField l "annotations" :=
         findField_cleanFinals_ne _ _ (by decide)
       rw [ha] at h2
       simp [cleanAnnots, h2])

theorem scrub_none_uid (m : Fields) : findField (scrubMetaKeys m) "uid" = none := by
  unfold scrubMetaKeys
  rw [findField_removeField_ne "selfLink" "uid" _ (by decide),
      findField_removeField_ne "managedFields" "uid" _ (by decide),
      findField_removeField_ne "generation" "uid" _ (by decide),
      findField_removeField_ne "creationTimestamp" "uid" _ (by decide),
      findField_removeField_ne "resourceVersion" "uid" _ (by decide)]
  exact findField_removeField_self _ _

theorem scrub_none_rv (m : Fields) : findField (scrubMetaKeys m) "resourceVersion" = none := by
  unfold scrubMetaKeys
  rw [findField_removeField_ne "selfLink" "resourceVersion" _ (by decide),
      findField_removeField_ne "managedFields" "resourceVersion" _ (by decide),
      findField_removeField_ne "generation" "resourceVersion" _ (by decide),
      findField_removeField_ne "creationTimestamp" "resourceVersion" _ (by decide)]
  exact findField_removeField_self _ _

theorem scrub_none_ct (m : Fields) :
    findField (scrubMetaKeys m) "creationTimestamp" = none := by
  unfold scrubMetaKeys
  rw [findField_removeField_ne "selfLink" "creationTimestamp" _ (by decide),
      findField_removeField_ne "managedFields" "creationTimestamp" _ (by decide),
      findField_removeField_ne "generation" "creationTimestamp" _ (by decide)]
  exact findField_removeField_self _ _

theorem scrub_none_gen (m : Fields) : findField (scrubMetaKeys m) "generation" = none := by
  unfold scrubMetaKeys
  rw [findField_removeField_ne "selfLink" "generation" _ (by decide),
      findField_removeField_ne "managedFields" "generation" _ (by decide)]
  exact findField_removeField_self _ _

theorem scrub_none_mf (m : Fields) : findField (scrubMetaKeys m) "managedFields" = none := by
  unfold scrubMetaKeys
  rw [findField_removeField_ne "selfLink" "managedFields" _ (by decide)]
  exact findField_removeField_self _ _

theorem scrub_none_sl (m : Fields) : findField (scrubMetaKeys m) "selfLink" = none :=
  findField_removeField_self _ _

theorem scrubMetaKeys_of_absent (m : Fields)
    (h1 : findField m "uid" = none) (h2 : findField m "resourceVersion" = none)
    (h3 : findField m "creationTimestamp" = none) (h4 : findField m "generation" = none)
    (h5 : findField m "managedFields" = none) (h6 : findField m "selfLink" = none) :
    scrubMetaKeys m = m := by
  unfold scrubMetaKeys
  rw [removeField_of_findField_none _ _ h1, removeField_of_findField_none _ _ h2,
      removeField_of_findField_none _ _ h3, removeField_of_findField_none _ _ h4,
      removeField_of_findField_none _ _ h5, removeField_of_findField_none _ _ h6]

theorem cleanMetadataFields_idem (m : Fields) :
    cleanMetadataFields (cleanMetadataFields m) = cleanMetadataFields m := by
  unfold cleanMetadataFields
  have key1 : findField (cleanFinals (cleanAnnots (scrubMetaKeys m))) "uid" = none := by
    rw [findField_cleanFinals_ne _ "uid" (by decide),
        findField_cleanAnnots_ne _ "uid" (by decide)]
    exact scrub_none_uid m
  have key2 : findField (cleanFinals (cleanAnnots (scrubMetaKeys m)))
      "resourceVersion" = none := by
    rw [findField_cleanFinals_ne _ "resourceVersion" (by decide),
        findField_cleanAnnots_ne _ "resourceVersion" (by decide)]
    exact scrub_none_rv m
  have key3 : findField (cleanFinals (cleanAnnots (scrubMetaKeys m)))
      "creationTimestamp" = none := by
    rw [findField_cleanFinals_ne _ "creationTimestamp" (by decide),
        findField_cleanAnnots_ne _ "creationTimestamp" (by decide)]
    exact scrub_none_ct m
  have key4 : findField (cleanFinals (cleanAnnots (scrubMetaKeys m)))
      "generation" = none := by
    rw [findField_cleanFinals_ne _ "generation" (by decide),
        findField_cleanAnnots_ne _ "generation" (by decide)]
    exact scrub_none_gen m
  have key5 : findField (cleanFinals (cleanAnnots (scrubMetaKeys m)))
      "managedFields" = none := by
    rw [findField_cleanFinals_ne _ "managedFields" (by decide),
        findField_cleanAnnots_ne _ "managedFields" (by decide)]
    exact scrub_none_mf m
  have key6 : findField (cleanFinals (cleanAnnots (scrubMetaKeys m)))
      "selfLink" = none := by
    rw [findField_cleanFinals_ne _ "selfLink" (by decide),
        findField_cleanAnnots_ne _ "selfLink" (by decide)]
    exact scrub_none_sl m
  rw [scrubMetaKeys_of_absent _ key1 key2 key3 key4 key5 key6, cleanAnnots_stable,
      cleanFinals_cleanFinals]

theorem cleanMetadataValue_idem (v : Json) :
    cleanMetadataValue (cleanMetadataValue v) = cleanMetadataValue v := by
  rcases v with _ | b | n | s | es | m <;> simp [cleanMetadataValue, cleanMetadataFields_idem]

theorem cleanNodeSpec_idem (v : Json) : cleanNodeSpec (cleanNodeSpec v) = cleanNodeSpec v := by
  rcases v with _ | b | n | s | es | o <;> simp [cleanNodeSpec, filter_filter_self]

theorem sanitizeServicePort_idem (port : Json) :
    sanitizeServicePort (sanitizeServicePort port) = sanitizeServicePort port := by
  rcases port with _ | b | n | s | es | p
  case obj =>
    rcases hnp : findField p "nodePort" with _ | np
    · simp [sanitizeServicePort, hnp]
    · by_cases hc : 30000 ≤ np.asU64.getD 0
      · simp [sanitizeServicePort, hnp, hc, findField_removeField_self]
      · simp [sanitizeServicePort, hnp, hc]
  all_goals simp [sanitizeServicePort]

theorem cleanServicePorts_idem (v : Json) :
    cleanServicePorts (cleanServicePorts v) = cleanServicePorts v := by
  rcases v with _ | b | n | s | ports | o
  case arr =>
    simp only [cleanServicePorts, List.map_map, Function.comp_def, sanitizeServicePort_idem]
  all_goals simp [cleanServicePorts]

theorem cleanServiceSpecFields_idem (s : Fields) :
    cleanServiceSpecFields (cleanServiceSpecFields s) = cleanServiceSpecFields s := by
  unfold cleanServiceSpecFields
  rw [removeField_modifyField_ne "clusterIP" "ports" _ _ (by decide),
      removeField_modifyField_ne "clusterIPs" "ports" _ _ (by decide),
      modifyField_modifyField,
      modifyField_ext _ _ cleanServicePorts _ cleanServicePorts_idem,
      removeField_comm "clusterIP" "clusterIPs" (removeField "clusterIP" s),
      removeField_removeField, removeField_removeField]

theorem cleanServiceSpec_idem (v : Json) :
    cleanServiceSpec (cleanServiceSpec v) = cleanServiceSpec v := by
  rcases v with _ | b | n | s | es | o <;> simp [cleanServiceSpec, cleanServiceSpecFields_idem]

theorem cleanPVSpec_idem (v : Json) : cleanPVSpec (cleanPVSpec v) = cleanPVSpec v := by
  rcases v with _ | b | n | s | es | o <;> simp [cleanPVSpec, removeField_removeField]

theorem cleanPVCSpec_idem (v : Json) : cleanPVCSpec (cleanPVCSpec v) = cleanPVCSpec v := by
  rcases v with _ | b | n | s | es | o <;> simp [cleanPVCSpec, removeField_removeField]

theorem kindRule_idem (x : Option Json) (f : Json → Json) (h : kindRule x = some f) :
    ∀ v, f (f v) = f v := by
  unfold kindRule at h
  split at h
  · exact (Option.some_inj.mp h) ▸ cleanNodeSpec_idem
  · exact (Option.some_inj.mp h) ▸ cleanServiceSpec_idem
  · exact (Option.some_inj.mp h) ▸ cleanPVSpec_idem
  · exact (Option.some_inj.mp h) ▸ cleanPVCSpec_idem
  · exact absurd h (by simp)

theorem findField_metaStep_ne (o : Fields) (q : String) (h : q ≠ "metadata") :
    findField (metaStep o) q = findField o q :=
  findField_modifyField_ne _ _ _ _ h

theorem findField_kindStep_ne (o : Fields) (q : String) (h : q ≠ "spec") :
    findField (kindStep o) q = findField o q := by
  rcases hk : kindRule (findField o "kind") with _ | f
  · simp [kindStep, hk]
  · simp [kindStep, hk]
    exact findField_modifyField_ne _ _ _ _ h

theorem metaStep_idem (o : Fields) : metaStep (metaStep o) = metaStep o := by
  unfold metaStep
  rw [modifyField_modifyField]
  exact modifyField_ext _ _ _ _ cleanMetadataValue_idem

theorem kindStep_idem (o : Fields) : kindStep (kindStep o) = kindStep o := by
  have hkind : findField (kindStep o) "kind" = findField o "kind" :=
    findField_kindStep_ne o "kind" (by decide)
  rcases hk : kindRule (findField o "kind") with _ | f
  · have h1 : kindStep o = o := by simp [kindStep, hk]
    rw [h1]; exact h1
  · have h1 : kindStep o = modifyField "spec" f o := by simp [kindStep, hk]
    have h2 : findField (modifyField "spec" f o) "kind" = findField o "kind" :=
      findField_modifyField_ne _ _ _ _ (by decide)
    rw [h1]
    have h3 : kindStep (modifyField "spec" f o)
        = modifyField "spec" f (modifyField "spec" f o) := by
      simp [kindStep, h2, hk]
    rw [h3, modifyField_modifyField]
    exact modifyField_ext _ _ _ _ (kindRule_idem _ f hk)

theorem metaStep_kindStep_comm (o : Fields) : metaStep (kindStep o) = kindStep (metaStep o) := by
  have hkind : findField (metaStep o) "kind" = findField o "kind" :=
    findField_metaStep_ne o "kind" (by decide)
  rcases hk : kindRule (findField o "kind") with _ | f
  · have h1 : kindStep o = o := by simp [kindStep, hk]
    have h2 : kindStep (metaStep o) = metaStep o := by simp [kindStep, hkind, hk]
    rw [h1, h2]
  · have h1 : kindStep o = modifyField "spec" f o := by simp [kindStep, hk]
    have h2 : kindStep (metaStep o) = modifyField "spec" f (metaStep o) := by
      simp [kindStep, hkind, hk]
    rw [h1, h2]
    unfold metaStep
    exact modifyField_comm _ _ _ _ _ (by decide)

theorem findField_sanitizeFields_status (o : Fields) :
    findField (sanitizeFields o) "status" = none := by
  unfold sanitizeFields
  rw [findField_kindStep_ne _ _ (by decide), findField_metaStep_ne _ _ (by decide)]
  exact findField_removeField_self _ _

theorem sanitizeFields_idem (o : Fields) :
    sanitizeFields (sanitizeFields o) = sanitizeFields o := by
  have hstat : removeField "status" (sanitizeFields o) = sanitizeFields o :=
    removeField_of_findField_none _ _ (findField_sanitizeFields_status o)
  show kindStep (metaStep (removeField "status" (sanitizeFields o))) = sanitizeFields o
  rw [hstat]
  show kindStep (metaStep (kindStep (metaStep (removeField "status" o)))) = sanitizeFields o
  rw [metaStep_kindStep_comm, metaStep_idem, kindStep_idem]
  rfl

/-- C4: the sanitizer is idempotent: for every JSON document `d`,
sanitizing twice equals sanitizing once, so no field removed by the first
application (status subtree, the listed metadata fields, filtered annotations
and finalizers, kind-specific removals) is present after the second. -/
theorem C4_sanitizer_idempotent (d : Json) :
    sanitizeResource (sanitizeResource d) = sanitizeResource d := by
  rcases d with _ | b | n | s | es | o <;> simp [sanitizeResource, sanitizeFields_idem]

/-- C6: when sanitizing a document whose kind is `Service`, `spec.clusterIP`
and `spec.clusterIPs` are removed, every port entry whose `nodePort` numeric
value is at least 30000 loses its `nodePort` field, and every port entry whose
`nodePort` numeric value is below 30000 keeps it unchanged. -/
theorem C6_service_sanitization (o s : Fields)
    (hkind : findField o "kind" = some (Json.str "Service"))
    (hspec : findField o "spec" = some (Json.obj s)) :
    (sanitizeResource (Json.obj o)).get? "spec"
        = some (Json.obj (cleanServiceSpecFields s))
  ∧ findField (cleanServiceSpecFields s) "clusterIP" = none
  ∧ findField (cleanServiceSpecFields s) "clusterIPs" = none
  ∧ (∀ ps, findField s "ports" = some (Json.arr ps) →
      findField (cleanServiceSpecFields s) "ports"
        = some (Json.arr (ps.map sanitizeServicePort)))
  ∧ (∀ (pf : Fields) (v : Int), findField pf "nodePort" = some (Json.num v) →
      ((30000 ≤ v → (sanitizeServicePort (Json.obj pf)).get? "nodePort" = none)
        ∧ (v < 30000 → (sanitizeServicePort (Json.obj pf)).get? "nodePort"
            = some (Json.num v)))) := by
  refine ⟨?_, ?_, ?_, ?_, ?_⟩
  · have hkind2 : findField (metaStep (removeField "status" o)) "kind"
        = some (Json.str "Service") := by
      rw [findField_metaStep_ne _ _ (by decide), findField_removeField_ne _ _ _ (by decide),
          hkind]
    have hspec2 : findField (metaStep (removeField "status" o)) "spec"
        = some (Json.obj s) := by
      rw [findField_metaStep_ne _ _ (by decide), findField_removeField_ne _ _ _ (by decide),
          hspec]
    show (Json.obj (sanitizeFields o)).get? "spec" = _
    unfold sanitizeFields kindStep
    rw [hkind2]
    show findField (modifyField "spec" cleanServiceSpec
      (metaStep (removeField "status" o))) "spec" = _
    rw [findField_modifyField_self, hspec2]
    rfl
  · unfold cleanServiceSpecFields
    rw [findField_modifyField_ne _ _ _ _ (by decide),
        findField_removeField_ne _ _ _ (by decide)]
    exact findField_removeField_self _ _
  · unfold cleanServiceSpecFields
    rw [findField_modifyField_ne _ _ _ _ (by decide)]
    exact findField_removeField_self _ _
  · intro ps hps
    unfold cleanServiceSpecFields
    rw [findField_modifyField_self, findField_removeField_ne _ _ _ (by decide),
        findField_removeField_ne _ _ _ (by decide), hps]
    rfl
  · intro pf v hnp
    constructor
    · intro hge
      have h0 : (0 : Int) ≤ v := by omega
      have hcond : 30000 ≤ ((Json.num v).asU64.getD 0) := by
        simp [Json.asU64, h0]
        omega
      simp [sanitizeServicePort, hnp, hcond, Json.get?]
      exact findField_removeField_self _ _
    · intro hlt
      have hcond : ¬ 30000 ≤ ((Json.num v).asU64.getD 0) := by
        by_cases h0 : (0 : Int) ≤ v
        · simp [Json.asU64, h0]
          omega
        · simp [Json.asU64, h0]
      simp [sanitizeServicePort, hnp, hcond, Json.get?]

/-- Witness for C6 at a concrete Service: the sanitized spec is the cleaned
spec, nodePort 30000 is removed, and nodePort 29999 is retained. -/
theorem C6_witness :
    findField exampleServiceFields "kind" = some (Json.str "Service")
  ∧ findField exampleServiceFields "spec" = some (Json.obj exampleServiceSpec)
  ∧ (sanitizeResource (Json.obj exampleServiceFields)).get? "spec"
      = some (Json.obj (cleanServiceSpecFields exampleServiceSpec))
  ∧ (sanitizeServicePort (Json.obj [("port", Json.num 80),
      ("nodePort", Json.num 30000)])).get? "nodePort" = none
  ∧ (sanitizeServicePort (Json.obj [("port", Json.num 443),
      ("nodePort", Json.num 29999)])).get? "nodePort" = some (Json.num 29999) := by
  refine ⟨rfl, rfl, ?_, ?_, ?_⟩
  · exact (C6_service_sanitization exampleServiceFields exampleServiceSpec rfl rfl).1
  · exact ((C6_service_sanitization exampleServiceFields exampleServiceSpec rfl
      rfl).2.2.2.2 [("port", Json.num 80), ("nodePort", Json.num 30000)] 30000 rfl).1
      (by decide)
  · exact ((C6_service_sanitization exampleServiceFields exampleServiceSpec rfl
      rfl).2.2.2.2 [("port", Json.num 443), ("nodePort", Json.num 29999)] 29999 rfl).2
      (by decide)

/-! ## Save loop and statistics -/

theorem save_loop_drop (rd rt fmt : String) (san : Bool) (d : Json)
    (hname : resourceStrName d = none) (l1 l2 : List Json) (acc : SaveOutcome) :
    save_loop rd rt fmt san (l1 ++ d :: l2) acc = save_loop rd rt fmt san (l1 ++ l2) acc := by
  induction l1 generalizing acc with
  | nil => simp [save_loop, hname]
  | cons x rest ih =>
    simp only [List.cons_append]
    cases hx : resourceStrName x with
    | none =>
      simp only [save_loop, hx]
      exact ih acc
    | some nm =>
      cases hs : san with
      | true =>
        subst hs
        simp [save_loop, hx, sanitize_resource_for_apply]
        split
        · exact ih _
        · split
          · exact ih _
          · split
            · exact ih _
            · rfl
      | false =>
        subst hs
        simp [save_loop, hx]
        split
        · exact ih _
        · split
          · exact ih _
          · split
            · exact ih _
            · rfl

theorem save_drop_nameless (output_dir nsName : String) (d : Json) (l1 l2 : List Json)
    (rt fmt : String) (san : Bool) (hname : resourceStrName d = none) :
    save_resources_individually output_dir nsName (l1 ++ d :: l2) rt fmt san
      = save_resources_individually output_dir nsName (l1 ++ l2) rt fmt san := by
  by_cases hE : l1 ++ l2 = []
  · have h1 : l1 = [] := (List.append_eq_nil.mp hE).1
    have h2 : l2 = [] := (List.append_eq_nil.mp hE).2
    subst h1; subst h2
    simp [save_resources_individually, save_loop, hname]
  · have hne1 : ¬ ((l1 ++ d :: l2).isEmpty = true) := by
      simp [List.isEmpty_iff]
    have hne2 : ¬ ((l1 ++ l2).isEmpty = true) := by
      simp [List.isEmpty_iff, hE]
    unfold save_resources_individually
    rw [if_neg hne1, if_neg hne2]
    exact save_loop_drop _ _ _ _ _ hname _ _ _

theorem save_loop_no_skip (rd rt fmt : String) (san : Bool) (l : List Json)
    (acc res : SaveOutcome) (h : save_loop rd rt fmt san l acc = .ok res) :
    res.stats.total_skipped = acc.stats.total_skipped
      ∧ res.stats.skipped_resources = acc.stats.skipped_resources := by
  induction l generalizing acc with
  | nil =>
    simp only [save_loop, Except.ok.injEq] at h
    rw [← h]
    exact ⟨rfl, rfl⟩
  | cons x rest ih =>
    cases hx : resourceStrName x with
    | none =>
      simp only [save_loop, hx] at h
      exact ih acc h
    | some nm =>
      cases hs : san with
      | true =>
        subst hs
        simp [save_loop, hx, sanitize_resource_for_apply] at h
        split at h
        · have := ih _ h
          simpa [SanitizationStats.record_sanitized] using this
        · split at h
          · have := ih _ h
            simpa [SanitizationStats.record_sanitized] using this
          · split at h
            · have := ih _ h
              simpa [SanitizationStats.record_sanitized] using this
            · simp at h
      | false =>
        subst hs
        simp [save_loop, hx] at h
        split at h
        · have := ih _ h
          simpa [SanitizationStats.record_raw] using this
        · split at h
          · have := ih _ h
            simpa [SanitizationStats.record_raw] using this
          · split at h
            · have := ih _ h
              simpa [SanitizationStats.record_raw] using this
            · simp at h

/-- Counterexample for C2: a document that is not a JSON object is returned by
the sanitizer wrapped in `Ok`, unchanged — not as a skip signal — and the save
loop records nothing for it (no processed, no skipped entry, no file). -/
theorem C2_cex :
    sanitize_resource_for_apply (Json.str "not-an-object")
      = Except.ok (Json.str "not-an-object")
  ∧ save_resources_individually "out" "default" [Json.str "not-an-object"] "pods" "json" true
      = Except.ok { saved_count := 0, stats := SanitizationStats.new, files := [] } :=
  ⟨rfl, rfl⟩

/-- C2 (amended): the sanitizer returns `Ok` on every non-object input
(unchanged), the caller's skip-recording branch is unreachable (every
successful save run ends with a zero skipped counter and an empty skipped
list), and a non-object document is instead dropped silently by the
`metadata.name` gate: the run behaves exactly as if the document were absent. -/
theorem C2_unparsable_documents (r d : Json) (l1 l2 resources : List Json)
    (output_dir nsName rt fmt : String) (san : Bool) (res : SaveOutcome) :
    ((∀ o : Fields, r ≠ Json.obj o) → sanitize_resource_for_apply r = .ok r)
  ∧ (save_resources_individually output_dir nsName resources rt fmt san = .ok res →
      res.stats.total_skipped = 0 ∧ res.stats.skipped_resources = [])
  ∧ ((∀ o : Fields, d ≠ Json.obj o) →
      save_resources_individually output_dir nsName (l1 ++ d :: l2) rt fmt san
        = save_resources_individually output_dir nsName (l1 ++ l2) rt fmt san) := by
  refine ⟨?_, ?_, ?_⟩
  · intro hr
    rcases r with _ | b | n | s | es | o
    case obj => exact absurd rfl (hr o)
    all_goals rfl
  · intro h
    unfold save_resources_individually at h
    by_cases hE : resources.isEmpty
    · rw [if_pos hE] at h
      simp only [Except.ok.injEq] at h
      rw [← h]
      exact ⟨rfl, rfl⟩
    · rw [if_neg hE] at h
      simpa [SanitizationStats.new] using save_loop_no_skip _ _ _ _ _ _ _ h
  · intro hd
    have hname : resourceStrName d = none := by
      rcases d with _ | b | n | s | es | o
      case obj => exact absurd rfl (hd o)
      all_goals rfl
    exact save_drop_nameless _ _ _ _ _ _ _ _ hname

/-- Witness for C2 (amended) at concrete inputs: a string document passes the
sanitizer unchanged, the empty save run reports no skips, and inserting a
string document into a run leaves it untouched. -/
theorem C2_witness :
    sanitize_resource_for_apply (Json.str "x") = .ok (Json.str "x")
  ∧ ((SaveOutcome.mk 0 SanitizationStats.new []).stats.total_skipped = 0
      ∧ (SaveOutcome.mk 0 SanitizationStats.new []).stats.skipped_resources = [])
  ∧ save_resources_individually "out" "default" ([namedDoc] ++ Json.str "x" :: []) "pods"
      "json" true
      = save_resources_individually "out" "default" ([namedDoc] ++ []) "pods" "json" true := by
  refine ⟨?_, ?_, ?_⟩
  · exact (C2_unparsable_documents (Json.str "x") (Json.str "x") [] [] [] "out" "default"
      "pods" "json" true (SaveOutcome.mk 0 SanitizationStats.new [])).1
      (fun o h => Json.noConfusion h)
  · exact (C2_unparsable_documents (Json.str "x") (Json.str "x") [] [] [] "out" "default"
      "pods" "json" true (SaveOutcome.mk 0 SanitizationStats.new [])).2.1 rfl
  · exact (C2_unparsable_documents (Json.str "x") (Json.str "x") [namedDoc] [] [] "out"
      "default" "pods" "json" true (SaveOutcome.mk 0 SanitizationStats.new [])).2.2
      (fun o h => Json.noConfusion h)

/-- C9: a resource document whose `metadata.name` is absent or not a string
produces no output file and leaves the returned statistics untouched: the save
run is identical to the run without that document. -/
theorem C9_nameless_document_ignored (output_dir nsName rt fmt : String) (san : Bool)
    (d : Json) (l1 l2 : List Json) (hname : resourceStrName d = none) :
    save_resources_individually output_dir nsName (l1 ++ d :: l2) rt fmt san
      = save_resources_individually output_dir nsName (l1 ++ l2) rt fmt san :=
  save_drop_nameless output_dir nsName d l1 l2 rt fmt san hname

/-- Witness for C9: a document with a namespace but no name changes nothing
about a concrete save run. -/
theorem C9_witness :
    resourceStrName namelessDoc = none
  ∧ save_resources_individually "out" "default" ([namedDoc] ++ namelessDoc :: []) "configmaps"
      "json" true
      = save_resources_individually "out" "default" ([namedDoc] ++ []) "configmaps" "json"
        true :=
  ⟨rfl, C9_nameless_document_ignored "out" "default" "configmaps" "json" true namelessDoc
    [namedDoc] [] rfl⟩

/-- C10: the statistics invariant (`total_skipped` equals the length of the
skipped list, and sanitized plus skipped never exceed processed) holds for the
fresh value and is preserved by every recording operation and by `add`. -/
theorem C10_stats_invariant (s t : SanitizationStats) (resource_identifier : String) :
    StatsInv SanitizationStats.new
  ∧ (StatsInv s → StatsInv s.record_sanitized)
  ∧ (StatsInv s → StatsInv (s.record_skipped resource_identifier))
  ∧ (StatsInv s → StatsInv s.record_raw)
  ∧ (StatsInv s → StatsInv t → StatsInv (s.add t)) := by
  refine ⟨⟨rfl, by simp [SanitizationStats.new]⟩, ?_, ?_, ?_, ?_⟩
  · rintro ⟨h1, h2⟩
    exact ⟨h1, by simp [SanitizationStats.record_sanitized]; omega⟩
  · rintro ⟨h1, h2⟩
    refine ⟨?_, ?_⟩
    · simp [SanitizationStats.record_skipped, h1]
    · simp [SanitizationStats.record_skipped]; omega
  · rintro ⟨h1, h2⟩
    exact ⟨h1, by simp [SanitizationStats.record_raw]; omega⟩
  · rintro ⟨h1, h2⟩ ⟨h3, h4⟩
    refine ⟨?_, ?_⟩
    · simp [SanitizationStats.add, h1, h3]
    · simp [SanitizationStats.add]; omega

/-- Witness for C10: the invariant instances at a concrete chain of updates. -/
theorem C10_witness :
    StatsInv SanitizationStats.new
  ∧ StatsInv (SanitizationStats.new.record_sanitized)
  ∧ StatsInv (SanitizationStats.new.record_skipped "pods/p1")
  ∧ StatsInv (SanitizationStats.new.record_raw)
  ∧ StatsInv ((SanitizationStats.new.record_sanitized).add
      (SanitizationStats.new.record_skipped "pods/p1")) := by
  have base := (C10_stats_invariant SanitizationStats.new SanitizationStats.new "pods/p1").1
  refine ⟨base, ?_, ?_, ?_, ?_⟩
  · exact (C10_stats_invariant SanitizationStats.new SanitizationStats.new "pods/p1").2.1 base
  · exact (C10_stats_invariant SanitizationStats.new SanitizationStats.new "pods/p1").2.2.1
      base
  · exact (C10_stats_invariant SanitizationStats.new SanitizationStats.new "pods/p1").2.2.2.1
      base
  · exact (C10_stats_invariant SanitizationStats.new.record_sanitized
      (SanitizationStats.new.record_skipped "pods/p1") "pods/p1").2.2.2.2
      ((C10_stats_invariant SanitizationStats.new SanitizationStats.new "pods/p1").2.1 base)
      ((C10_stats_invariant SanitizationStats.new SanitizationStats.new "pods/p1").2.2.1 base)

/-! ## Component detector -/

/-- C8: the deployment-topology label follows exactly the claimed case table:
Rancher with Metal3 gives "Management Cluster"; Rancher and Elemental without
Metal3 gives "Elemental Management Cluster"; Rancher alone gives "Rancher
Management Cluster"; a distribution without Rancher gives "Downstream
Cluster"; otherwise "Standalone Cluster". -/
theorem C8_deployment_topology (components : List SuseEdgeComponent) :
    determine_deployment_type_precise components = deployment_type_table components := by
  simp only [determine_deployment_type_precise, deployment_type_table]
  cases hR : components.any (fun c => strContains c.name "Rancher") <;>
    cases hM : components.any (fun c => strContains c.name "Metal3") <;>
      cases hE : components.any (fun c => strContains c.name "Elemental") <;>
        cases hK : components.any (fun c => c.name == "K3s" || c.name == "RKE2") <;>
          simp

theorem confidence_table_agrees (score count : Nat) :
    determine_confidence_level_conservative score count
      = confidence_label_table score count := by
  simp [determine_confidence_level_conservative, confidence_label_table]


theorem confidence_label_table_congr (s s' c c' : Nat) (hs : s = s') (hc : c = c') :
    confidence_label_table s c = confidence_label_table s' c' := by rw [hs, hc]

/-- C7: the detector's confidence score is 20 per distribution observation,
15 per definition-group observation, 10 per deployment-in-namespace
observation, and 5 for the registry observation; the report's component count
is the number of observations, and its confidence label is obtained from that
score and the count through the priority-ordered threshold table (which the
code's range match realises, per `confidence_table_agrees`). -/
theorem C7_confidence_scoring (nsm cm : ResourceMap) (a : SuseEdgeAnalysis)
    (h : detect_suse_edge_components nsm cm = some a) :
    a.total_components
        = obsFlag (detect_kubernetes_distribution_precise nsm cm)
          + obsLen (detect_suse_edge_crds_precise cm)
          + obsLen (detect_core_suse_components nsm)
          + obsFlag (detect_suse_registry_usage_precise nsm)
  ∧ a.confidence
      = confidence_label_table
          (20 * obsFlag (detect_kubernetes_distribution_precise nsm cm)
            + 15 * obsLen (detect_suse_edge_crds_precise cm)
            + 10 * obsLen (detect_core_suse_components nsm)
            + 5 * obsFlag (detect_suse_registry_usage_precise nsm))
          a.total_components := by
  rcases hd : detect_kubernetes_distribution_precise nsm cm with _ | dc <;>
    rcases hc : detect_suse_edge_crds_precise cm with _ | cl <;>
      rcases hco : detect_core_suse_components nsm with _ | col <;>
        rcases hr : detect_suse_registry_usage_precise nsm with _ | rc <;>
          simp only [detect_suse_edge_components, hd, hc, hco, hr] at h <;>
            simp only [hd, hc, hco, hr, obsFlag, obsLen, Option.isSome]
  · simp at h
  all_goals (
    split at h
    · simp at h
    · rw [Option.some.injEq] at h
      subst h
      constructor
      · simp <;> omega
      · simp [confidence_table_agrees]
        try exact confidence_label_table_congr _ _ _ _ (by omega) (by omega))

/-! ## Custom-resource resolver -/

theorem phase1_err_of_discovery_err (env : ClusterEnv) (cr_info : CustomResourceInfo)
    (namespaces : List String) (e : String) (hd : env.discovery = .error e) :
    collect_custom_resource_instances_discovery env cr_info namespaces
      = ([Step.runDiscovery], .error e) := by
  unfold collect_custom_resource_instances_discovery
  rw [hd]

theorem discovery_ok_phase1_ok (env : ClusterEnv) (cr_info : CustomResourceInfo)
    (namespaces : List String) (d : List DiscoveryEntry) (hd : env.discovery = .ok d) :
    ∃ instances, (collect_custom_resource_instances_discovery env cr_info namespaces).2
      = .ok instances := by
  unfold collect_custom_resource_instances_discovery
  rw [hd]
  cases hn : cr_info.namespaced
  · simp only [Bool.false_eq_true, if_false]
    rcases hcl : collect_cluster_custom_resource_discovery env d cr_info.plural with ⟨t, r⟩
    rcases r with er | inst <;> simp
  · simp

theorem hybrid_of_discovery_ok (env : ClusterEnv) (cr_info : CustomResourceInfo)
    (namespaces : List String) (d : List DiscoveryEntry) (hd : env.discovery = .ok d) :
    collect_custom_resource_instances_hybrid env cr_info namespaces
      = collect_custom_resource_instances_discovery env cr_info namespaces := by
  obtain ⟨instances, hi⟩ := discovery_ok_phase1_ok env cr_info namespaces d hd
  unfold collect_custom_resource_instances_hybrid
  rcases hp : collect_custom_resource_instances_discovery env cr_info namespaces with ⟨t1, r1⟩
  rw [hp] at hi
  simp only at hi
  subst hi
  rfl

theorem hybrid_of_discovery_err (env : ClusterEnv) (cr_info : CustomResourceInfo)
    (namespaces : List String) (e : String) (hd : env.discovery = .error e) :
    collect_custom_resource_instances_hybrid env cr_info namespaces
      = ([Step.runDiscovery]
          ++ (collect_custom_resource_instances_crd_based env cr_info namespaces).1,
         (collect_custom_resource_instances_crd_based env cr_info namespaces).2) := by
  unfold collect_custom_resource_instances_hybrid
  rw [phase1_err_of_discovery_err env cr_info namespaces e hd]

/-- Counterexample for C1: with a reachable discovery document that simply
lacks the matching entry, phase 1 is not reported as failed — it returns `Ok`
with nothing — and the hybrid resolver stops there without invoking phase 2,
even though the definition-based endpoint would have returned an instance. -/
theorem C1_cex :
    (([] : List DiscoveryEntry).find? (fun e => e.plural == "widgets" && e.namespaced)
        = none)
  ∧ (collect_custom_resource_instances_discovery envNoEntry widgetInfo ["default"]).2
      = .ok []
  ∧ collect_custom_resource_instances_hybrid envNoEntry widgetInfo ["default"]
      = ([Step.runDiscovery], .ok ([] : List Json))
  ∧ (collect_custom_resource_instances_crd_based envNoEntry widgetInfo ["default"]).2
      = .ok [Json.str "phantom-instance"] :=
  ⟨rfl, rfl, rfl, rfl⟩

/-- C1 (amended): phase 1 returns an error exactly when the discovery-document
fetch itself fails.  When the fetch succeeds, phase 1 always returns `Ok`
(a missing discovery entry is contained per namespace, or per cluster call,
and contributes nothing) and the hybrid resolver returns phase 1's result
without invoking phase 2; when the fetch fails, the hybrid resolver runs
phase 2 and returns its result. -/
theorem C1_fallback_trigger (env : ClusterEnv) (cr_info : CustomResourceInfo)
    (namespaces : List String) :
    (∀ d, env.discovery = .ok d →
        (∃ instances,
          (collect_custom_resource_instances_discovery env cr_info namespaces).2
            = .ok instances)
      ∧ collect_custom_resource_instances_hybrid env cr_info namespaces
          = collect_custom_resource_instances_discovery env cr_info namespaces)
  ∧ (∀ e, env.discovery = .error e →
        (collect_custom_resource_instances_discovery env cr_info namespaces).2 = .error e
      ∧ collect_custom_resource_instances_hybrid env cr_info namespaces
          = ([Step.runDiscovery]
              ++ (collect_custom_resource_instances_crd_based env cr_info namespaces).1,
             (collect_custom_resource_instances_crd_based env cr_info namespaces).2)) := by
  constructor
  · intro d hd
    exact ⟨discovery_ok_phase1_ok env cr_info namespaces d hd,
      hybrid_of_discovery_ok env cr_info namespaces d hd⟩
  · intro e hd
    refine ⟨?_, hybrid_of_discovery_err env cr_info namespaces e hd⟩
    rw [phase1_err_of_discovery_err env cr_info namespaces e hd]

/-- Witness for C1 (amended) at two concrete environments: one with a
reachable but empty discovery document, one whose discovery fetch fails. -/
theorem C1_witness :
    ((∃ instances,
        (collect_custom_resource_instances_discovery envNoEntry widgetInfo ["default"]).2
          = .ok instances)
      ∧ collect_custom_resource_instances_hybrid envNoEntry widgetInfo ["default"]
          = collect_custom_resource_instances_discovery envNoEntry widgetInfo ["default"])
  ∧ ((collect_custom_resource_instances_discovery envDiscoveryDown widgetInfo
        ["default"]).2 = .error "connection refused"
      ∧ collect_custom_resource_instances_hybrid envDiscoveryDown widgetInfo ["default"]
          = ([Step.runDiscovery]
              ++ (collect_custom_resource_instances_crd_based envDiscoveryDown widgetInfo
                  ["default"]).1,
             (collect_custom_resource_instances_crd_based envDiscoveryDown widgetInfo
                  ["default"]).2)) :=
  ⟨(C1_fallback_trigger envNoEntry widgetInfo ["default"]).1 [] rfl,
   (C1_fallback_trigger envDiscoveryDown widgetInfo ["default"]).2 "connection refused" rfl⟩

theorem countRunDiscovery_append (t1 t2 : List Step) :
    countRunDiscovery (t1 ++ t2) = countRunDiscovery t1 + countRunDiscovery t2 := by
  simp [countRunDiscovery, List.filter_append]

theorem countRunDiscovery_run_cons (t : List Step) :
    countRunDiscovery (Step.runDiscovery :: t) = countRunDiscovery t + 1 := by
  simp [countRunDiscovery, List.filter_cons]

theorem namespaced_disc_count (env : ClusterEnv) (d : List DiscoveryEntry)
    (plural ns : String) :
    countRunDiscovery
      (collect_namespaced_custom_resource_discovery env d plural ns).1 = 0 := by
  unfold collect_namespaced_custom_resource_discovery
  rcases h : d.find? (fun e => e.plural == plural && e.namespaced) with _ | entry <;>
    simp [h, countRunDiscovery]

theorem cluster_disc_count (env : ClusterEnv) (d : List DiscoveryEntry) (plural : String) :
    countRunDiscovery
      (collect_cluster_custom_resource_discovery env d plural).1 = 0 := by
  unfold collect_cluster_custom_resource_discovery
  rcases h : d.find? (fun e => e.plural == plural && !e.namespaced) with _ | entry <;>
    simp [h, countRunDiscovery]

theorem disc_fold_count (env : ClusterEnv) (d : List DiscoveryEntry) (plural : String)
    (namespaces : List String) (acc : List Step × List Json) :
    countRunDiscovery ((namespaces.foldl (fun (acc : List Step × List Json) ns =>
      match collect_namespaced_custom_resource_discovery env d plural ns with
      | (t, .ok instances) => (acc.1 ++ t, acc.2 ++ instances)
      | (t, .error _) => (acc.1 ++ t, acc.2)) acc).1)
      = countRunDiscovery acc.1 := by
  induction namespaces generalizing acc with
  | nil => rfl
  | cons ns rest ih =>
    simp only [List.foldl_cons]
    rw [ih]
    rcases hcall : collect_namespaced_custom_resource_discovery env d plural ns with ⟨t, r⟩
    have ht : countRunDiscovery t = 0 := by
      have := namespaced_disc_count env d plural ns
      rw [hcall] at this
      exact this
    rcases r with er | inst <;> simp [countRunDiscovery_append, ht]

theorem crd_fold_count (env : ClusterEnv) (api_version plural : String)
    (namespaces : List String) (acc : List Step × List Json) :
    countRunDiscovery ((namespaces.foldl (fun (acc : List Step × List Json) ns =>
      match env.listCrdNs api_version plural ns with
      | .ok instances =>
        (acc.1 ++ [Step.listCrdNs api_version plural ns], acc.2 ++ instances)
      | .error _ => (acc.1 ++ [Step.listCrdNs api_version plural ns], acc.2)) acc).1)
      = countRunDiscovery acc.1 := by
  induction namespaces generalizing acc with
  | nil => rfl
  | cons ns rest ih =>
    simp only [List.foldl_cons]
    rw [ih]
    rcases hcall : env.listCrdNs api_version plural ns with er | inst <;>
      simp [hcall, countRunDiscovery_append, countRunDiscovery]

theorem crd_based_no_discovery (env : ClusterEnv) (cr_info : CustomResourceInfo)
    (namespaces : List String) :
    countRunDiscovery
      (collect_custom_resource_instances_crd_based env cr_info namespaces).1 = 0 := by
  unfold collect_custom_resource_instances_crd_based
  cases hn : cr_info.namespaced
  · simp only [Bool.false_eq_true, if_false]
    rcases hcall : env.listCrdCluster (crdApiVersion cr_info) cr_info.plural with er | inst <;>
      simp [hcall, countRunDiscovery]
  · simp only [if_true]
    exact crd_fold_count env (crdApiVersion cr_info) cr_info.plural namespaces ([], [])

theorem phase1_one_discovery (env : ClusterEnv) (cr_info : CustomResourceInfo)
    (namespaces : List String) :
    countRunDiscovery
      (collect_custom_resource_instances_discovery env cr_info namespaces).1 = 1 := by
  unfold collect_custom_resource_instances_discovery
  rcases hd : env.discovery with e | d
  · simp [countRunDiscovery]
  · cases hn : cr_info.namespaced
    · simp only [Bool.false_eq_true, if_false]
      rcases hcl : collect_cluster_custom_resource_discovery env d cr_info.plural with ⟨t, r⟩
      have ht : countRunDiscovery t = 0 := by
        have := cluster_disc_count env d cr_info.plural
        rw [hcl] at this
        exact this
      rcases r with er | inst <;> simp [countRunDiscovery_run_cons, ht]
    · simp only [if_true, countRunDiscovery_run_cons]
      rw [disc_fold_count]
      rfl

theorem hybrid_one_discovery (env : ClusterEnv) (cr_info : CustomResourceInfo)
    (namespaces : List String) :
    countRunDiscovery
      (collect_custom_resource_instances_hybrid env cr_info namespaces).1 = 1 := by
  unfold collect_custom_resource_instances_hybrid
  rcases hp : collect_custom_resource_instances_discovery env cr_info namespaces with ⟨t1, r1⟩
  have h1 : countRunDiscovery t1 = 1 := by
    have := phase1_one_discovery env cr_info namespaces
    rw [hp] at this
    exact this
  rcases r1 with er | inst <;>
    simp [countRunDiscovery_append, h1, crd_based_no_discovery]

theorem collect_all_fold_count (env : ClusterEnv) (namespaces : List String)
    (crds : List Json) (acc : List Step × List (String × List Json)) :
    countRunDiscovery ((crds.foldl (collect_all_step env namespaces) acc).1)
      = countRunDiscovery acc.1 + (crds.filter parsesToDescriptor).length := by
  induction crds generalizing acc with
  | nil => simp
  | cons crd rest ih =>
    simp only [List.foldl_cons, List.filter_cons]
    rw [ih]
    rcases hp : parse_crd_info crd with e | oi
    · simp [collect_all_step, hp, parsesToDescriptor]
    · rcases oi with _ | info
      · simp [collect_all_step, hp, parsesToDescriptor]
      · rcases hh : collect_custom_resource_instances_hybrid env info namespaces with ⟨t, r⟩
        have ht : countRunDiscovery t = 1 := by
          have := hybrid_one_discovery env info namespaces
          rw [hh] at this
          exact this
        have hpd : parsesToDescriptor crd = true := by simp [parsesToDescriptor, hp]
        rcases r with er | inst
        · simp [collect_all_step, hp, hh, hpd, countRunDiscovery_append, ht]
          omega
        · by_cases hie : inst.isEmpty <;>
            simp [collect_all_step, hp, hh, hpd, hie, countRunDiscovery_append, ht] <;>
              omega

/-- Counterexample for C3: a run over two (identical) well-formed definition
documents performs two discovery-document fetches — the snapshot is not shared
across descriptors. -/
theorem C3_cex :
    countRunDiscovery
      (collect_all_custom_resources envNoEntry [widgetCrd, widgetCrd] ["default"]).1
      = 2 := rfl

/-- C3 (amended): the discovery document is fetched once per successfully
parsed descriptor — each hybrid resolution performs exactly one fetch, and a
whole run performs as many fetches as there are definition documents that
parse to a descriptor — rather than at most once per run. -/
theorem C3_discovery_fetch_per_descriptor (env : ClusterEnv) (crds : List Json)
    (namespaces : List String) :
    countRunDiscovery (collect_all_custom_resources env crds namespaces).1
        = (crds.filter parsesToDescriptor).length
  ∧ (∀ cr_info, countRunDiscovery
      (collect_custom_resource_instances_hybrid env cr_info namespaces).1 = 1) := by
  constructor
  · have := collect_all_fold_count env namespaces crds ([], [])
    simpa [collect_all_custom_resources, countRunDiscovery] using this
  · intro cr_info
    exact hybrid_one_discovery env cr_info namespaces

theorem firstServed_mem (vs : List Json) (vn : String) (h : firstServed vs = some vn) :
    ∃ v ∈ vs, (v.get? "name").bind Json.asStr = some vn
      ∧ (v.get? "served").bind Json.asBool = some true := by
  induction vs with
  | nil => simp [firstServed] at h
  | cons v rest ih =>
    unfold firstServed at h
    rcases hn : (v.get? "name").bind Json.asStr with _ | nm <;> rw [hn] at h
    · rcases hs : (v.get? "served").bind Json.asBool with _ | b <;> rw [hs] at h <;>
        simp only [] at h <;>
          (obtain ⟨u, hu, h1, h2⟩ := ih h
           exact ⟨u, List.mem_cons_of_mem _ hu, h1, h2⟩)
    · rcases hs : (v.get? "served").bind Json.asBool with _ | b <;> rw [hs] at h
      · simp only [] at h
        obtain ⟨u, hu, h1, h2⟩ := ih h
        exact ⟨u, List.mem_cons_of_mem _ hu, h1, h2⟩
      · cases b
        · simp only [if_false, Bool.false_eq_true] at h
          obtain ⟨u, hu, h1, h2⟩ := ih h
          exact ⟨u, List.mem_cons_of_mem _ hu, h1, h2⟩
        · simp only [if_true, Option.some.injEq] at h
          exact ⟨v, List.mem_cons_self _ _, h ▸ hn, hs⟩

theorem parse_ok_some_served (crd : Json) (info : CustomResourceInfo)
    (h : parse_crd_info crd = .ok (some info)) :
    ∃ vs, crdVersions crd = some vs ∧ ∃ v ∈ vs,
      (v.get? "name").bind Json.asStr = some info.version
      ∧ (v.get? "served").bind Json.asBool = some true := by
  unfold parse_crd_info at h
  rcases hm : crd.get? "metadata" with _ | metadata
  · rw [hm] at h; simp at h
  rcases hsp : crd.get? "spec" with _ | spec
  · simp [hm, hsp] at h
  rcases hnm : (metadata.get? "name").bind Json.asStr with _ | _name
  · simp [hm, hsp, hnm] at h
  rcases hns : spec.get? "names" with _ | names
  · simp [hm, hsp, hnm, hns] at h
  rcases hpl : (names.get? "plural").bind Json.asStr with _ | plural
  · simp [hm, hsp, hnm, hns, hpl] at h
  rcases hv : (spec.get? "versions").bind Json.asArr with _ | versions
  · simp [hm, hsp, hnm, hns, hpl, hv] at h
  rcases hfs : firstServed versions with _ | version_name
  · simp [hm, hsp, hnm, hns, hpl, hv, hfs] at h
  · simp only [hm, hsp, hnm, hns, hpl, hv, hfs] at h
    simp at h
    refine ⟨versions, ?_, ?_⟩
    · simp [crdVersions, hsp]
      exact hv
    · have hver : info.version = version_name := by
        rw [← h]
      rw [hver]
      exact firstServed_mem versions version_name hfs

theorem parse_no_served (crd : Json) (vs : List Json) (hv : crdVersions crd = some vs)
    (hns : ∀ v ∈ vs, ((v.get? "served").bind Json.asBool) ≠ some true)
    (info : CustomResourceInfo) : parse_crd_info crd ≠ .ok (some info) := by
  intro h
  obtain ⟨vs2, hv2, u, hu, _, hserved⟩ := parse_ok_some_served crd info h
  rw [hv] at hv2
  simp only [Option.some.injEq] at hv2
  exact hns u (hv2 ▸ hu) hserved

theorem collect_all_skip (env : ClusterEnv) (namespaces : List String) (crd : Json)
    (l1 l2 : List Json) (h : ∀ info, parse_crd_info crd ≠ .ok (some info)) :
    collect_all_custom_resources env (l1 ++ crd :: l2) namespaces
      = collect_all_custom_resources env (l1 ++ l2) namespaces := by
  have hstep : ∀ acc, collect_all_step env namespaces acc crd = acc := by
    intro acc
    unfold collect_all_step
    rcases hp : parse_crd_info crd with e | oi
    · rfl
    · rcases oi with _ | info
      · rfl
      · exact absurd hp (h info)
  unfold collect_all_custom_resources
  rw [List.foldl_append, List.foldl_append, List.foldl_cons, hstep]

/-- C5: a custom-resource-definition whose version list has no entry marked
served yields no descriptor, and the run treats it exactly as if it were
absent (no collection attempt, no abort); conversely, a built descriptor's
version always originates from a version entry marked served. -/
theorem C5_served_version_required (crd : Json) (vs : List Json)
    (info : CustomResourceInfo) (env : ClusterEnv) (namespaces : List String)
    (l1 l2 : List Json) :
    (crdVersions crd = some vs →
      (∀ v ∈ vs, ((v.get? "served").bind Json.asBool) ≠ some true) →
      (parse_crd_info crd ≠ .ok (some info)
        ∧ collect_all_custom_resources env (l1 ++ crd :: l2) namespaces
            = collect_all_custom_resources env (l1 ++ l2) namespaces))
  ∧ (parse_crd_info crd = .ok (some info) →
      ∃ vs2, crdVersions crd = some vs2 ∧ ∃ v ∈ vs2,
        (v.get? "name").bind Json.asStr = some info.version
        ∧ (v.get? "served").bind Json.asBool = some true) := by
  constructor
  · intro hv hns
    exact ⟨parse_no_served crd vs hv hns info,
      collect_all_skip env namespaces crd l1 l2 (parse_no_served crd vs hv hns)⟩
  · exact parse_ok_some_served crd info

/-- Witness for C5: the unserved definition is skipped by a concrete run, and
the served definition's descriptor version comes from its served entry. -/
theorem C5_witness :
    crdVersions unservedCrd = some unservedVersions
  ∧ parse_crd_info unservedCrd ≠ .ok (some widgetInfo)
  ∧ collect_all_custom_resources envNoEntry ([] ++ unservedCrd :: []) ["default"]
      = collect_all_custom_resources envNoEntry ([] ++ []) ["default"]
  ∧ parse_crd_info widgetCrd = .ok (some widgetInfo)
  ∧ (∃ vs2, crdVersions widgetCrd = some vs2 ∧ ∃ v ∈ vs2,
      (v.get? "name").bind Json.asStr = some widgetInfo.version
      ∧ (v.get? "served").bind Json.asBool = some true) := by
  have hA := (C5_served_version_required unservedCrd unservedVersions widgetInfo envNoEntry
    ["default"] [] []).1 rfl (by decide)
  refine ⟨rfl, hA.1, hA.2, rfl, ?_⟩
  exact (C5_served_version_required widgetCrd [] widgetInfo envNoEntry ["default"] [] []).2
    rfl

/-- Witness for C7: on a cluster exposing only the K3s marker role, the
detector reports one component with score 20 and the "Low" label. -/
theorem C7_witness :
    detect_suse_edge_components [] k3sClusterResources = some k3sOnlyAnalysis
  ∧ k3sOnlyAnalysis.total_components
      = obsFlag (detect_kubernetes_distribution_precise [] k3sClusterResources)
        + obsLen (detect_suse_edge_crds_precise k3sClusterResources)
        + obsLen (detect_core_suse_components [])
        + obsFlag (detect_suse_registry_usage_precise [])
  ∧ k3sOnlyAnalysis.confidence
      = confidence_label_table
          (20 * obsFlag (detect_kubernetes_distribution_precise [] k3sClusterResources)
            + 15 * obsLen (detect_suse_edge_crds_precise k3sClusterResources)
            + 10 * obsLen (detect_core_suse_components [])
            + 5 * obsFlag (detect_suse_registry_usage_precise []))
          k3sOnlyAnalysis.total_components := by
  have hd : detect_suse_edge_components [] k3sClusterResources = some k3sOnlyAnalysis := rfl
  exact ⟨hd, (C7_confidence_scoring [] k3sClusterResources k3sOnlyAnalysis hd).1,
    (C7_confidence_scoring [] k3sClusterResources k3sOnlyAnalysis hd).2⟩
